import Mathlib

/-!
Verification development for the OCC Operational Consistency Verification
Engine: verdict combination (`occ/judges/pipeline.py` and
`mrd_g0_dm/scripts/run_mrd_g0_dm.py`), certificate validation
(`mrd_4f_unif_dyn/src/ilsc_mrd/judges/certificates.py`), and the PCN/PCD
stability sweeps with their downgrade policy
(`mrd_g0_dm/src/ilsc_mrd/checks/pcn_pcd.py`,
`mrd_obs_isaac/src/ilsc_mrd/runner.py`).

The Python data (JSON-shaped dictionaries) is embedded as the inductive
type `PyVal`; dictionaries are association lists in insertion order, which
matches CPython dict semantics (iteration in insertion order, assignment
to an existing key keeps its position).  Python floats are modelled as
exact rationals: no claim treated here depends on binary rounding, only on
which comparisons and coercions succeed.
-/

set_option maxHeartbeats 1000000
set_option maxRecDepth 16384

namespace OCC

/-! ### Character-list string primitives

Python's `startswith`, `strip`, `upper`, `lower` are modelled on the
character data of the string (the certificates and verdict tags are
ASCII; `strip`/`upper`/`lower` are exact on ASCII, which is all any
theorem exercises). -/

/-- `s.startswith(p)`. -/
def pyStartsWith (s p : String) : Bool :=
  p.data.isPrefixOf s.data

/-- The whitespace `str.strip()` removes (ASCII part). -/
def isPySpace (c : Char) : Bool :=
  c = ' ' || c = '\t' || c = '\n' || c = '\r' || c.toNat = 11 || c.toNat = 12

/-- `s.strip()`. -/
def pyStrip (s : String) : String :=
  String.mk (((s.data.dropWhile isPySpace).reverse.dropWhile isPySpace).reverse)

/-- ASCII uppercase of one character. -/
def asciiUpperChar (c : Char) : Char :=
  if 97 ≤ c.toNat && c.toNat ≤ 122 then Char.ofNat (c.toNat - 32) else c

/-- ASCII lowercase of one character. -/
def asciiLowerChar (c : Char) : Char :=
  if 65 ≤ c.toNat && c.toNat ≤ 90 then Char.ofNat (c.toNat + 32) else c

/-- `s.upper()` (ASCII). -/
def pyUpper (s : String) : String :=
  String.mk (s.data.map asciiUpperChar)

/-- `s.lower()` (ASCII). -/
def pyLower (s : String) : String :=
  String.mk (s.data.map asciiLowerChar)

/-- A JSON-like Python value as produced by `json.load` / `yaml.safe_load`
and manipulated by the engine.  Keys of dictionaries are strings (all
certificate and lock dictionaries come from JSON/YAML objects). -/
inductive PyVal where
  | none
  | bool (b : Bool)
  | int (n : Int)
  | float (q : ℚ)
  | str (s : String)
  | list (xs : List PyVal)
  | dict (kvs : List (String × PyVal))

/-- A Python dictionary with string keys, in insertion order. -/
abbrev Dict := List (String × PyVal)

/-- `d.get(k)` / `d[k]` lookup: first binding of `k`. -/
def dGet (d : Dict) (k : String) : Option PyVal :=
  match d with
  | [] => Option.none
  | (k1, v) :: rest => if k1 = k then some v else dGet rest k

/-- `d.get(k, default)`. -/
def dGetD (d : Dict) (k : String) (dflt : PyVal) : PyVal :=
  (dGet d k).getD dflt

/-- `d[k] = v`: replace the first binding of `k` in place (CPython keeps
the insertion position of an existing key), else append. -/
def dSet (d : Dict) (k : String) (v : PyVal) : Dict :=
  match d with
  | [] => [(k, v)]
  | (k1, v1) :: rest => if k1 = k then (k1, v) :: rest else (k1, v1) :: dSet rest k v

/-! Rational comparison and multiplication are written on numerators and
denominators (`a.den`, `b.den` are positive), and rational construction
goes through `mkRat`: these compute by the kernel, where the library's
field operations on `ℚ` are irreducible.  The bridge lemmas `pyLtB_iff`,
`pyLeB_iff` and `pyMulQ_eq` below prove them equal to the `ℚ` order and
product. -/

/-- `a < b` on ℚ by cross multiplication. -/
def pyLtB (a b : ℚ) : Bool :=
  a.num * (b.den : Int) < b.num * (a.den : Int)

/-- `a ≤ b` on ℚ by cross multiplication. -/
def pyLeB (a b : ℚ) : Bool :=
  a.num * (b.den : Int) ≤ b.num * (a.den : Int)

/-- `a * b` on ℚ through `mkRat`. -/
def pyMulQ (a b : ℚ) : ℚ :=
  mkRat (a.num * b.num) (a.den * b.den)

/-- Python truthiness of a value (`bool(v)`). -/
def pyTruthy : PyVal → Bool
  | .none => false
  | .bool b => b
  | .int n => n ≠ 0
  | .float q => q.num ≠ 0
  | .str s => s ≠ ""
  | .list xs => !xs.isEmpty
  | .dict kvs => !kvs.isEmpty

/-! ## occ/judges/pipeline.py — `combine` over judge results -/

/-- `occ.judges.base.JudgeResult` (the fields read by `combine`; the
`details` mapping is never consulted by the combiner). -/
structure JudgeResult where
  judge : String
  verdict : String
  code : String
  message : String
deriving DecidableEq

/-- `occ.judges.pipeline.combine`: first result whose verdict starts with
NO-EVAL wins, else first starting with FAIL, else PASS with empty reason. -/
def combine (results : List JudgeResult) : String × String :=
  match results.find? (fun r => pyStartsWith r.verdict "NO-EVAL") with
  | some r => (r.verdict, r.code)
  | Option.none =>
    match results.find? (fun r => pyStartsWith r.verdict "FAIL") with
    | some r => (r.verdict, r.code)
    | Option.none => ("PASS", "")

/-! ## mrd_g0_dm/scripts/run_mrd_g0_dm.py — `compute_final_verdict` -/

/-- The lock argument shapes `compute_final_verdict` normalizes: a list of
lock dicts, `None`, or a dict.  (Any other shape raises `AttributeError`
at `locks.items()` in the original and is outside the model's domain.) -/
inductive Locks where
  | asNone
  | asList (items : List PyVal)
  | asDict (d : Dict)

/-- `item.get('id') or item.get('lock') or item.get('name') or 'LOCK'`:
Python `or` chain on truthiness. -/
def lockKeyOf (iv : Dict) : PyVal :=
  let a := dGetD iv "id" .none
  if pyTruthy a then a else
  let b := dGetD iv "lock" .none
  if pyTruthy b then b else
  let c := dGetD iv "name" .none
  if pyTruthy c then c else .str "LOCK"

/-- Python `str(v)` for the values that can appear as lock keys.  The
string/bool/None/int renderings are exact; float and container renderings
are best-effort placeholders (no theorem below depends on them, and in the
repository lock keys are always strings). -/
def pyStr : PyVal → String
  | .str s => s
  | .bool b => if b then "True" else "False"
  | .none => "None"
  | .int n => toString n
  | .float q => toString q
  | .list _ => "[...]"
  | .dict _ => "{...}"

/-- The list-normalization loop of `compute_final_verdict`: non-dict items
are dropped, dict items are keyed by `lockKeyOf`. -/
def normalizeLocks : Locks → Dict
  | .asNone => []
  | .asDict d => d
  | .asList items =>
    items.foldl
      (fun tmp item =>
        match item with
        | .dict iv => dSet tmp (pyStr (lockKeyOf iv)) item
        | _ => tmp)
      []

/-- The certificates gate: the first certificate entry that is a dict and
whose `verdict` is a string starting with NO-EVAL or FAIL produces the
result; the `if certificates:` guard of the original is redundant (an
empty dict runs the loop zero times). -/
def certScan : Dict → Option (String × String)
  | [] => Option.none
  | (k, v) :: rest =>
    match v with
    | .dict vd =>
      match dGetD vd "verdict" .none with
      | .str s =>
        if pyStartsWith s "NO-EVAL" || pyStartsWith s "FAIL" then
          let reason := "CERTS_" ++ k
          if pyStartsWith s "NO-EVAL" then some ("NO-EVAL(" ++ reason ++ ")", reason)
          else some ("FAIL(" ++ reason ++ ")", reason)
        else certScan rest
      | _ => certScan rest
    | _ => certScan rest

/-- The locks loop: first dict entry whose `pass` is falsy decides; its
`verdict` (default the string FAIL) picks NO-EVAL vs FAIL. -/
def lockScan : Dict → String × String
  | [] => ("PASS", "")
  | (k, v) :: rest =>
    match v with
    | .dict vd =>
      if pyTruthy (dGetD vd "pass" (.bool false)) then lockScan rest
      else
        match dGetD vd "verdict" (.str "FAIL") with
        | .str s =>
          if pyStartsWith s "NO-EVAL" then ("NO-EVAL(" ++ k ++ ")", k)
          else ("FAIL(" ++ k ++ ")", k)
        | _ => ("FAIL(" ++ k ++ ")", k)
    | _ => lockScan rest

/-- `compute_final_verdict(locks, certificates)` from
`run_mrd_g0_dm.py`: normalize locks, scan certificates once, then scan
locks in declared order. -/
def compute_final_verdict (locks : Locks) (certificates : Dict) : String × String :=
  match certScan certificates with
  | some r => r
  | Option.none => lockScan (normalizeLocks locks)

/-- A certificate entry the certificates gate of `compute_final_verdict`
treats as failing: a dict whose `verdict` is a string starting with
NO-EVAL or FAIL. -/
def certFails (kv : String × PyVal) : Bool :=
  match kv.2 with
  | .dict vd =>
    match dGetD vd "verdict" .none with
    | .str s => pyStartsWith s "NO-EVAL" || pyStartsWith s "FAIL"
    | _ => false
  | _ => false

/-- A lock entry the locks loop of `compute_final_verdict` treats as
failing: a dict whose `pass` value is falsy. -/
def lockFails (kv : String × PyVal) : Bool :=
  match kv.2 with
  | .dict vd => !pyTruthy (dGetD vd "pass" (.bool false))
  | _ => false

/-! ## mrd_g0_dm/src/ilsc_mrd/checks/pcn_pcd.py — stability sweeps

The sweeps re-invoke the full evaluation through the callback `run_once`
(the runner passes `run_case(cfg2, do_meta=False)`).  The evaluation
configuration is modelled as the fields the sweeps read or write —
`numerics.grid.omega_grid.n`, `numerics.grid.time_grid.n`,
`numerics.tolerances.eps_psd` — plus an opaque remainder `rest` standing
for everything `copy.deepcopy` clones untouched.  Each sweep is defined in
a traced form returning, besides the Python function's result, the list of
configurations passed to `run_once` in call order; this makes the dynamic
"was the nested evaluation executed" events of the source visible to the
theorems.  `run_once`'s result dict is read only at key `"verdict"`. -/

/-- The sweep-visible part of an evaluation configuration. -/
structure Cfg (α : Type) where
  nOmega : Int
  nTime : Int
  epsPsd : ℚ
  rest : α
deriving DecidableEq

/-- The grid scaling of `pcn_sweep`:
`cfg_r["numerics"]["grid"][g]["n"] = int(max(10, n*r))` for both grids. -/
def scaleGrids {α : Type} (cfg : Cfg α) (r : Int) : Cfg α :=
  { cfg with nOmega := max 10 (cfg.nOmega * r), nTime := max 10 (cfg.nTime * r) }

/-- `_work(cfg) = float(2*n_time*n_omega)`.  Kept as an exact integer: the
comparison against the cap is unaffected by the float conversion (integers
near 5e7 are exactly representable; far larger ones stay far larger). -/
def work {α : Type} (cfg : Cfg α) : Int :=
  2 * cfg.nTime * cfg.nOmega

/-- `_MAX_WORK = 5.0e7`. -/
def MAX_WORK : Int := 50000000

/-- Result of one nested evaluation, read at key `verdict` only. -/
structure RunResult where
  verdict : String
deriving DecidableEq

/-- Two-digit padding for the exponent of the scientific rendering. -/
def pad2 (n : Nat) : String :=
  if n < 10 then "0" ++ toString n else toString n

/-- Python `.2e` formatting of an integer-valued float, used only inside
the skip `reason` strings (round-half-even on the third significant
digit; for magnitudes beyond 2 to the 53rd the float conversion of the
original could round first, which no theorem exercises). -/
def sciFormat2 (x : Int) : String :=
  let n := x.natAbs
  let sign := if x < 0 then "-" else ""
  if n = 0 then "0.00e+00"
  else
    let e := (toString n).length - 1
    let m :=
      if e ≤ 2 then n * 10 ^ (2 - e)
      else
        let d := 10 ^ (e - 2)
        let q := n / d
        let r := n % d
        if 2 * r > d then q + 1
        else if 2 * r = d then (if q % 2 = 1 then q + 1 else q)
        else q
    let me := if m ≥ 1000 then (m / 10, e + 1) else (m, e)
    let ms := toString me.1
    sign ++ String.mk (ms.data.take 1) ++ "." ++ String.mk (ms.data.drop 1) ++ "e+" ++ pad2 me.2

/-- An executed PCN refinement record `{"refinement": r, "verdict": v}`. -/
structure PcnRun where
  refinement : Int
  verdict : String
deriving DecidableEq

/-- A skipped PCN refinement record `{"refinement": r, "reason": ...}`. -/
structure PcnSkip where
  refinement : Int
  reason : String
deriving DecidableEq

/-- The dict returned by `pcn_sweep`. -/
structure PcnResult where
  pass : Bool
  flip : Bool
  runs : List PcnRun
  skipped : List PcnSkip
  work_cap : Int
deriving DecidableEq

/-- The loop body of `pcn_sweep` over the refinement list, carrying
`base_verdict` (`Option.none` until the first executed run) and returning
`(flip, runs, skipped, trace)`. -/
def pcnLoop {α : Type} (run_once : Cfg α → RunResult) (cfg : Cfg α) :
    List Int → Option String → Bool × List PcnRun × List PcnSkip × List (Cfg α)
  | [], _ => (false, [], [], [])
  | r :: rest, base =>
    let cfg_r := scaleGrids cfg r
    let w := work cfg_r
    if w > MAX_WORK then
      let out := pcnLoop run_once cfg rest base
      (out.1, out.2.1,
        ⟨r, "work_cap_exceeded (" ++ sciFormat2 w ++ " > " ++ sciFormat2 MAX_WORK ++ ")"⟩
          :: out.2.2.1,
        out.2.2.2)
    else
      let v := (run_once cfg_r).verdict
      match base with
      | Option.none =>
        let out := pcnLoop run_once cfg rest (some v)
        (out.1, ⟨r, v⟩ :: out.2.1, out.2.2.1, cfg_r :: out.2.2.2)
      | some b =>
        let out := pcnLoop run_once cfg rest (some b)
        ((v != b) || out.1, ⟨r, v⟩ :: out.2.1, out.2.2.1, cfg_r :: out.2.2.2)

/-- `pcn_sweep(cfg, refinements, run_once)` together with the list of
configurations actually passed to `run_once`, in call order. -/
def pcn_sweepT {α : Type} (cfg : Cfg α) (refinements : List Int)
    (run_once : Cfg α → RunResult) : PcnResult × List (Cfg α) :=
  let out := pcnLoop run_once cfg (1 :: refinements) Option.none
  ({ pass := !out.1 && out.2.2.1.isEmpty, flip := out.1, runs := out.2.1,
     skipped := out.2.2.1, work_cap := MAX_WORK }, out.2.2.2)

/-- `pcn_sweep` proper (the value the Python function returns). -/
def pcn_sweep {α : Type} (cfg : Cfg α) (refinements : List Int)
    (run_once : Cfg α → RunResult) : PcnResult :=
  (pcn_sweepT cfg refinements run_once).1

/-- A PCD record `{"factor": f, "verdict": v}` (skips are recorded in the
same list with verdict `SKIPPED(work_cap)`). -/
structure PcdRun where
  factor : ℚ
  verdict : String
deriving DecidableEq

/-- The dict returned by `pcd_sweep` (it has no `skipped` key). -/
structure PcdResult where
  pass : Bool
  flip : Bool
  runs : List PcdRun
  work_cap : Int
deriving DecidableEq

/-- The tolerance factors `[0.1, 1.0, 10.0]`; exact rationals stand in for
the float literals (the factor only scales `eps_psd` and labels the run
records, and no comparison in the sweep reads its numeric value). -/
def pcdFactors : List ℚ := [mkRat 1 10, mkRat 1 1, mkRat 10 1]

/-- `pcd_sweep(cfg, run_once)` together with the list of configurations
passed to `run_once` in call order.  The baseline call on the deep copy of
the unmodified configuration happens first, before any work-cap check. -/
def pcd_sweepT {α : Type} (cfg : Cfg α) (run_once : Cfg α → RunResult) :
    PcdResult × List (Cfg α) :=
  let base := (run_once cfg).verdict
  let base_eps := cfg.epsPsd
  let out := pcdFactors.foldl
    (fun (acc : List PcdRun × List (Cfg α)) factor =>
      let cfg2 := { cfg with epsPsd := pyMulQ base_eps factor }
      let w := work cfg2
      if w > MAX_WORK then (acc.1 ++ [⟨factor, "SKIPPED(work_cap)"⟩], acc.2)
      else (acc.1 ++ [⟨factor, (run_once cfg2).verdict⟩], acc.2 ++ [cfg2]))
    ([], [])
  let flip := out.1.any fun x => !(x.verdict == base) && !(x.verdict == "SKIPPED(work_cap)")
  let pass := !flip && out.1.all fun x => !(x.verdict == "SKIPPED(work_cap)")
  ({ pass := pass, flip := flip, runs := out.1, work_cap := MAX_WORK }, cfg :: out.2)

/-- `pcd_sweep` proper. -/
def pcd_sweep {α : Type} (cfg : Cfg α) (run_once : Cfg α → RunResult) : PcdResult :=
  (pcd_sweepT cfg run_once).1

/-! ## mrd_obs_isaac/src/ilsc_mrd/runner.py — the meta downgrade stage

Lines 238-249 of `run_case`: after both sweeps are stored in the lock map,
the provisional verdict is possibly replaced.  The stage reads only the
`flip`, `skipped` and `pass` entries of the sweep results (with the
defaults the sweeps always provide), so it is modelled as a function of
the verdict string and the two sweep results. -/
def applyMeta (verdict : String) (pcn : PcnResult) (pcd : PcdResult) : String :=
  let unstable := pcn.flip || !pcn.skipped.isEmpty || pcd.flip
  let inconclusive := !pcn.pass || !pcd.pass
  if pyStartsWith verdict "NO-EVAL" then verdict
  else if unstable then "NO-EVAL(unstable_under_PCN_or_PCD)"
  else if (verdict == "PASS") && inconclusive then "NO-EVAL(insufficient_PCN_or_PCD_coverage)"
  else verdict

/-! ## mrd_4f_unif_dyn/src/ilsc_mrd/judges/certificates.py

The validators receive the expected digests as parameters
(`expected_code`, `expected_data`, `expected_env` stand for the values of
`_compute_code_hash(repo_root)`, `_compute_data_hash(data_obj)` and
`"sha256:" + env_hash()`, which are pure functions of the repository tree,
the context object and the environment), and the wall-clock string `now`
stands for `now_utc_iso()`.  Python exceptions are modelled by `Exc`;
paths the original leaves uncaught surface as `Except.error`. -/

/-- The Python exceptions the validators can raise or catch.  Message
texts follow CPython, but no theorem depends on any of them except the
hash-mismatch `ValueError`, whose text `_check_or_fill_hash` builds
itself. -/
inductive Exc where
  | keyError (k : String)
  | typeError (msg : String)
  | valueError (msg : String)
  | attributeError (msg : String)
deriving DecidableEq

/-- Python `str(e)`: a `KeyError` renders as the quoted key, the others as
their message. -/
def excStr : Exc → String
  | .keyError k => "'" ++ k ++ "'"
  | .typeError m => m
  | .valueError m => m
  | .attributeError m => m

/-- Python `type(v).__name__` for `PyVal`. -/
def typeNamePy : PyVal → String
  | .none => "NoneType"
  | .bool _ => "bool"
  | .int _ => "int"
  | .float _ => "float"
  | .str _ => "str"
  | .list _ => "list"
  | .dict _ => "dict"

/-- The `AttributeError` raised by calling `.get` on a non-dict. -/
def attrErrNoGet (v : PyVal) : Exc :=
  .attributeError ("'" ++ typeNamePy v ++ "' object has no attribute 'get'")

/-- Numeric digit-string value. -/
def digitsVal (cs : List Char) : ℕ :=
  cs.foldl (fun a c => a * 10 + (c.toNat - 48)) 0

/-- Decimal float-literal parsing, the grammar `float(str)` accepts:
optional sign, digits with an optional point, optional `e`-exponent,
surrounding whitespace ignored.  The special literals `inf`, `infinity`
and `nan` (not representable in ℚ) and underscored digit groups are
outside the model; `floatStrSpecial` flags them and every theorem that
quantifies over non-numeric operands excludes them by hypothesis. -/
def parseFloat? (s : String) : Option ℚ :=
  let cs0 := (pyStrip s).data
  let sgncs : Int × List Char :=
    match cs0 with
    | '+' :: rest => (1, rest)
    | '-' :: rest => (-1, rest)
    | _ => (1, cs0)
  let d1 := sgncs.2.takeWhile Char.isDigit
  let cs1 := sgncs.2.dropWhile Char.isDigit
  let frac : List Char × List Char :=
    match cs1 with
    | '.' :: rest => (rest.takeWhile Char.isDigit, rest.dropWhile Char.isDigit)
    | _ => ([], cs1)
  let d2 := frac.1
  if d1.isEmpty && d2.isEmpty then Option.none
  else
    let num0 : Int := sgncs.1 * ((digitsVal d1 : Int) * 10 ^ d2.length + (digitsVal d2 : Int))
    match frac.2 with
    | [] => some (mkRat num0 (10 ^ d2.length))
    | e :: rest =>
      if e = 'e' || e = 'E' then
        let esgn : Int × List Char :=
          match rest with
          | '+' :: r => (1, r)
          | '-' :: r => (-1, r)
          | _ => (1, rest)
        let ed := esgn.2.takeWhile Char.isDigit
        if ed.isEmpty || !(esgn.2.dropWhile Char.isDigit).isEmpty then Option.none
        else
          let e2 : Int := esgn.1 * (digitsVal ed : Int) - (d2.length : Int)
          if 0 ≤ e2 then some (mkRat (num0 * 10 ^ e2.toNat) 1)
          else some (mkRat num0 (10 ^ (-e2).toNat))
      else Option.none

/-- Strings `float()` accepts but the ℚ model cannot represent (signed
inf/infinity/nan, underscored digit groups). -/
def floatStrSpecial (s : String) : Bool :=
  let t := pyLower (pyStrip s)
  let u := if pyStartsWith t "+" || pyStartsWith t "-" then String.mk (t.data.drop 1) else t
  u = "inf" || u = "infinity" || u = "nan" || s.toList.contains '_'

/-- Python `float(v)`. -/
def toFloatE : PyVal → Except Exc ℚ
  | .int n => .ok (mkRat n 1)
  | .float q => .ok q
  | .bool b => .ok (mkRat (if b then 1 else 0) 1)
  | .str s =>
    match parseFloat? s with
    | some q => .ok q
    | Option.none => .error (.valueError ("could not convert string to float: '" ++ s ++ "'"))
  | v => .error (.typeError ("float() argument must be a string or a real number, not '" ++ typeNamePy v ++ "'"))

/-- Python subscript `v[k]` with a string key. -/
def getItemE (v : PyVal) (k : String) : Except Exc PyVal :=
  match v with
  | .dict d =>
    match dGet d k with
    | some x => .ok x
    | Option.none => .error (.keyError k)
  | .list _ => .error (.typeError "list indices must be integers or slices, not str")
  | .str _ => .error (.typeError "string indices must be integers, not 'str'")
  | w => .error (.typeError ("'" ++ typeNamePy w ++ "' object is not subscriptable"))

/-- Python `list(v)`: lists copy, strings split into characters, dicts
list their keys, the rest are not iterable. -/
def pyListE : PyVal → Except Exc (List PyVal)
  | .list xs => .ok xs
  | .str s => .ok (s.toList.map fun c => .str (String.mk [c]))
  | .dict d => .ok (d.map fun kv => .str kv.1)
  | v => .error (.typeError ("'" ++ typeNamePy v ++ "' object is not iterable"))

/-- Python numeric value of an element, as used by `max` and by an order
comparison against a float (int, float and bool are numbers). -/
def numVal : PyVal → Option ℚ
  | .int n => some (mkRat n 1)
  | .float q => some q
  | .bool b => some (mkRat (if b then 1 else 0) 1)
  | _ => Option.none

/-- `max(deltas)` followed by the `>= kappa*sigma` comparison, collapsed
into its numeric value.  Outcome-faithful to the original: when every
element is a number both steps succeed with the numeric maximum; when the
list is empty `max` raises; otherwise either `max` raises (mixed types)
or the comparison of a non-number against the float `kappa*sigma` raises
— all of which the caller catches into the same NO-EVAL(PA2). -/
def maxNumE (xs : List PyVal) : Except Exc ℚ :=
  match xs.mapM numVal with
  | some [] => .error (.valueError "max() arg is an empty sequence")
  | some (q :: qs) => .ok (qs.foldl (fun a c => if pyLtB a c then c else a) q)
  | Option.none => .error (.typeError "unorderable or non-numeric operand in max comparison")

/-- `PA_REQUIRED` of certificates.py. -/
def PA_REQUIRED : List String :=
  ["cert_type", "cert_version", "projection_version", "Pi_signature", "assumptions",
   "delta_proj_method", "delta_proj", "kappa_rule", "hashes", "seeds", "run_log", "sigma_data"]

/-- `IO_REQUIRED` of certificates.py. -/
def IO_REQUIRED : List String :=
  ["cert_type", "cert_version", "map_O_theta", "theta_effective_list", "observables_list",
   "identifiability_metric", "threshold_tau", "degeneracies_list", "dataset_equivalence"]

/-- `RFS_REQUIRED` of certificates.py. -/
def RFS_REQUIRED : List String :=
  ["cert_type", "cert_version", "resource_budget", "isaac_link", "pcn_sweep", "pcd_sweep",
   "idealizations", "audit_hashes"]

/-- `_missing(cert, required)`: required keys absent from the cert, in
declared order. -/
def missingOf (cert : Dict) (required : List String) : List String :=
  required.filter fun k => (dGet cert k).isNone

/-- Python `v == s` for a lookup result against a string literal (a
missing key gives `None`, and no non-string value equals a string). -/
def isStrEq (v : Option PyVal) (s : String) : Bool :=
  match v with
  | some (.str t) => t == s
  | _ => false

/-- The `CertVerdict` dataclass. -/
structure CertVerdict where
  verdict : String
  note : String
deriving DecidableEq

/-- `_check_or_fill_hash(field, current, expected)`: falsy, `AUTO`
(stripped, case-insensitive) and `sha256:...`-placeholder slots are filled
with the expected digest; any other string must equal it or a `ValueError`
is raised; a truthy non-string has no `.strip` and raises. -/
def check_or_fill_hash (field : String) (current : PyVal) (expected : String) :
    Except Exc String :=
  if !pyTruthy current then .ok expected
  else
    match current with
    | .str s =>
      if pyUpper (pyStrip s) = "AUTO" || pyStartsWith s "sha256:..." then .ok expected
      else if s ≠ expected then
        .error (.valueError (field ++ " mismatch: cert has " ++ s ++ ", expected " ++ expected))
      else .ok s
    | v => .error (.attributeError ("'" ++ typeNamePy v ++ "' object has no attribute 'strip'"))

/-- Sequential slot processing of a hash dict: each slot is read with
`.get(key, "")`, checked or filled, and written back; the first exception
stops the loop, leaving the writes made so far (the original mutates the
aliased dict in place). -/
def fillSlots (fieldPre : String) : List (String × String) → Dict → Dict × Option Exc
  | [], d => (d, Option.none)
  | (key, expected) :: rest, d =>
    match check_or_fill_hash (fieldPre ++ "." ++ key) (dGetD d key (.str "")) expected with
    | .ok v => fillSlots fieldPre rest (dSet d key (.str v))
    | .error e => (d, some e)

/-- `_ensure_runlog(cert)`: `cert.get("run_log") or {}`, then
`setdefault("validated_at_utc", now)`, then write back.  A truthy
non-dict `run_log` raises an uncaught `AttributeError` (there is no
enclosing `try`), before any write to the cert. -/
def ensureRunlog (now : String) (cert : Dict) : Except Exc Dict :=
  let rl0 := dGetD cert "run_log" .none
  let rl := if pyTruthy rl0 then rl0 else .dict []
  match rl with
  | .dict d =>
    let d2 := if (dGet d "validated_at_utc").isSome then d else d ++ [("validated_at_utc", .str now)]
    .ok (dSet cert "run_log" (.dict d2))
  | v => .error (.attributeError ("'" ++ typeNamePy v ++ "' object has no attribute 'setdefault'"))

/-- The audited-hash block shared by `validate_pa` (slots code/data of
`hashes`) and `validate_rfs` (slots code/data/env of `audit_hashes`):
returns the updated cert, or the caught exception together with the cert
as the exception left it (writes to an aliased slot dict are visible; a
fresh default `{}` is discarded). -/
def hashBlock (field : String) (slots : List (String × String)) (cert : Dict) :
    Except (Exc × Dict) Dict :=
  match dGet cert field with
  | some (.dict d) =>
    let fs := fillSlots field slots d
    match fs.2 with
    | some e => .error (e, dSet cert field (.dict fs.1))
    | Option.none => .ok (dSet cert field (.dict fs.1))
  | some v => .error (attrErrNoGet v, cert)
  | Option.none =>
    let fs := fillSlots field slots []
    match fs.2 with
    | some e => .error (e, cert)
    | Option.none => .ok (dSet cert field (.dict fs.1))

/-- The PA dominance computation inside the second `try` of `validate_pa`:
`list(cert["delta_proj"]["delta"])`, `float(cert["kappa_rule"]["kappa"])`,
`float(cert["sigma_data"]["sigma"])`, then `max(deltas) >= kappa*sigma`. -/
def paDominance (cert : Dict) : Except Exc Bool := do
  let dp ← getItemE (.dict cert) "delta_proj"
  let dl ← getItemE dp "delta"
  let deltas ← pyListE dl
  let kr ← getItemE (.dict cert) "kappa_rule"
  let kv ← getItemE kr "kappa"
  let kappa ← toFloatE kv
  let sr ← getItemE (.dict cert) "sigma_data"
  let sv ← getItemE sr "sigma"
  let sigma ← toFloatE sv
  let m ← maxNumE deltas
  pure (pyLeB (pyMulQ kappa sigma) m)

/-- `validate_pa(cert, repo_root=..., data_obj=...)`.  Returns the verdict
and the certificate as the call leaves it; `Except.error` is the uncaught
`AttributeError` of `_ensure_runlog` on a truthy non-dict `run_log`. -/
def validate_pa (expected_code expected_data now : String) (cert : Dict) :
    Except Exc (CertVerdict × Dict) :=
  let miss := missingOf cert PA_REQUIRED
  if !miss.isEmpty then
    .ok (⟨"NO-EVAL(PA1)", "Missing required fields: " ++ String.intercalate ", " miss⟩, cert)
  else if !isStrEq (dGet cert "cert_type") "PA-CERT" then
    .ok (⟨"NO-EVAL(PA1)", "cert_type must be PA-CERT"⟩, cert)
  else
    match ensureRunlog now cert with
    | .error e => .error e
    | .ok cert1 =>
      match hashBlock "hashes" [("code", expected_code), ("data", expected_data)] cert1 with
      | .error ed =>
        .ok (⟨"NO-EVAL(PA5)", "Hash audit failed: " ++ excStr ed.1⟩, ed.2)
      | .ok cert2 =>
        match paDominance cert2 with
        | .ok true => .ok (⟨"NO-EVAL(PA3)", "Projection error dominates data uncertainty"⟩, cert2)
        | .ok false => .ok (⟨"PASS(PA)", "PA certificate checks passed (incl. PA5)"⟩, cert2)
        | .error e => .ok (⟨"NO-EVAL(PA2)", "Projection error bound not usable: " ++ excStr e⟩, cert2)

/-- The metric computation inside the `try` of `validate_io`:
`float(cert["identifiability_metric"]["value"]) < float(cert["threshold_tau"])`. -/
def ioMetric (cert : Dict) : Except Exc Bool := do
  let im ← getItemE (.dict cert) "identifiability_metric"
  let vv ← getItemE im "value"
  let v ← toFloatE vv
  let tv ← getItemE (.dict cert) "threshold_tau"
  let tau ← toFloatE tv
  pure (pyLtB v tau)

/-- `validate_io(cert)` (no hash audit, no mutation, never raises). -/
def validate_io (cert : Dict) : CertVerdict :=
  let miss := missingOf cert IO_REQUIRED
  if !miss.isEmpty then
    ⟨"NO-EVAL(IO1)", "Missing required fields: " ++ String.intercalate ", " miss⟩
  else if !isStrEq (dGet cert "cert_type") "IO-CERT" then
    ⟨"NO-EVAL(IO1)", "cert_type must be IO-CERT"⟩
  else
    match ioMetric cert with
    | .ok true => ⟨"NO-EVAL(IO3)", "Identifiability metric below threshold"⟩
    | .ok false => ⟨"PASS(IO)", "IO certificate checks passed"⟩
    | .error e => ⟨"NO-EVAL(IO1)", "Identifiability metric not usable: " ++ excStr e⟩

/-- `cert.get(key, {}).get("enabled", False) and cert.get(key, {}).get("flips", False)`
for the RFS sweep-flip checks; a non-dict sweep field raises an uncaught
`AttributeError` at the first `.get`. -/
def rfsSweepFlag (cert : Dict) (key : String) : Except Exc Bool :=
  match dGetD cert key (.dict []) with
  | .dict d => .ok (pyTruthy (dGetD d "enabled" (.bool false)) && pyTruthy (dGetD d "flips" (.bool false)))
  | v => .error (attrErrNoGet v)

/-- `validate_rfs(cert, repo_root=..., data_obj=...)`.  `Except.error` is
an uncaught `AttributeError` from a truthy non-dict `pcn_sweep` or
`pcd_sweep` field (the sweep-flip checks sit outside any `try`). -/
def validate_rfs (expected_code expected_data expected_env : String) (cert : Dict) :
    Except Exc (CertVerdict × Dict) :=
  let miss := missingOf cert RFS_REQUIRED
  if !miss.isEmpty then
    .ok (⟨"NO-EVAL(RFS1)", "Missing required fields: " ++ String.intercalate ", " miss⟩, cert)
  else if !isStrEq (dGet cert "cert_type") "RFS-CERT" then
    .ok (⟨"NO-EVAL(RFS1)", "cert_type must be RFS-CERT"⟩, cert)
  else
    match hashBlock "audit_hashes"
        [("code", expected_code), ("data", expected_data), ("env", expected_env)] cert with
    | .error ed =>
      .ok (⟨"NO-EVAL(RFS5)", "End-to-end audit failed: " ++ excStr ed.1⟩, ed.2)
    | .ok cert1 =>
      match rfsSweepFlag cert1 "pcn_sweep" with
      | .error e => .error e
      | .ok true => .ok (⟨"NO-EVAL(RFS2)", "Verdict flips under PCN sweep"⟩, cert1)
      | .ok false =>
        match rfsSweepFlag cert1 "pcd_sweep" with
        | .error e => .error e
        | .ok true => .ok (⟨"NO-EVAL(RFS3)", "Verdict flips under PCD sweep"⟩, cert1)
        | .ok false => .ok (⟨"PASS(RFS)", "RFS certificate checks passed (incl. RFS5)"⟩, cert1)

/-! ### Concrete certificates used by the closed theorems -/

/-- Observation of a validator result: the verdict string, or a marker
carrying the uncaught exception. -/
def certVerdictOf (r : Except Exc (CertVerdict × Dict)) : String :=
  match r with
  | .ok p => p.1.verdict
  | .error e => "raised " ++ excStr e

/-- A complete PA certificate (all 12 required fields, the spec's
example-1 numeric data: deltas [0.1, 0.2], kappa 2, sigma 0.05), with the
hash slots and the run_log value as parameters. -/
def paCertEx (hashesv rl : PyVal) : Dict :=
  [("cert_type", .str "PA-CERT"), ("cert_version", .str "1"), ("projection_version", .str "1"),
   ("Pi_signature", .str "sig"), ("assumptions", .list []), ("delta_proj_method", .str "m"),
   ("delta_proj", .dict [("delta", .list [.float (mkRat 1 10), .float (mkRat 2 10)])]),
   ("kappa_rule", .dict [("kappa", .float (mkRat 2 1))]), ("hashes", hashesv),
   ("seeds", .list []), ("run_log", rl), ("sigma_data", .dict [("sigma", .float (mkRat 1 20))])]

/-- A complete IO certificate with the identifiability metric value as a
parameter and threshold 0.5. -/
def ioCertEx (v : PyVal) : Dict :=
  [("cert_type", .str "IO-CERT"), ("cert_version", .str "1"), ("map_O_theta", .str "m"),
   ("theta_effective_list", .list []), ("observables_list", .list []),
   ("identifiability_metric", .dict [("value", v)]), ("threshold_tau", .float (mkRat 1 2)),
   ("degeneracies_list", .list []), ("dataset_equivalence", .dict [])]

/-- A complete RFS certificate (both sweeps disabled) with the
audit_hashes value as a parameter. -/
def rfsCertEx (ah : PyVal) : Dict :=
  [("cert_type", .str "RFS-CERT"), ("cert_version", .str "1"), ("resource_budget", .dict []),
   ("isaac_link", .str "l"), ("pcn_sweep", .dict [("enabled", .bool false)]),
   ("pcd_sweep", .dict [("enabled", .bool false)]), ("idealizations", .list []),
   ("audit_hashes", ah)]

/-! ## Bridge and helper lemmas -/

/-- The cross-multiplied strict comparison agrees with the order of ℚ. -/
theorem pyLtB_iff (a b : ℚ) : pyLtB a b = true ↔ a < b := by
  rw [pyLtB, decide_eq_true_eq]
  exact Rat.lt_def.symm

/-- The cross-multiplied weak comparison agrees with the order of ℚ. -/
theorem pyLeB_iff (a b : ℚ) : pyLeB a b = true ↔ a ≤ b := by
  rw [pyLeB, decide_eq_true_eq]
  exact Rat.le_def.symm

/-- The `mkRat` product agrees with the product of ℚ. -/
theorem pyMulQ_eq (a b : ℚ) : pyMulQ a b = a * b := by
  rw [pyMulQ, Rat.mul_def]
  exact (Rat.normalize_eq_mkRat _).symm

/-- Reading back a written key. -/
theorem dGet_dSet_self (d : Dict) (k : String) (v : PyVal) :
    dGet (dSet d k v) k = some v := by
  induction d with
  | nil => simp [dSet, dGet]
  | cons hd tl ih =>
    obtain ⟨k1, v1⟩ := hd
    by_cases h : k1 = k <;> simp [dSet, dGet, h, ih]

/-- Writing one key leaves every other key unchanged. -/
theorem dGet_dSet_ne (d : Dict) {k k1 : String} {v : PyVal} (h : k1 ≠ k) :
    dGet (dSet d k v) k1 = dGet d k1 := by
  induction d with
  | nil =>
    simp only [dSet, dGet]
    rw [if_neg (fun h2 => h h2.symm)]
  | cons hd tl ih =>
    obtain ⟨k2, v2⟩ := hd
    by_cases h2 : k2 = k
    · have hne : ¬ k2 = k1 := fun h3 => h (h3 ▸ h2 : k1 = k)
      have e : dSet ((k2, v2) :: tl) k v = (k2, v) :: tl := by simp [dSet, h2]
      rw [e, dGet, dGet, if_neg hne, if_neg hne]
    · simp [dSet, dGet, h2, ih]

/-- Rewriting a key with the value it already holds is the identity. -/
theorem dSet_eq_self {d : Dict} {k : String} {v : PyVal} (h : dGet d k = some v) :
    dSet d k v = d := by
  induction d with
  | nil => simp [dGet] at h
  | cons hd tl ih =>
    obtain ⟨k1, v1⟩ := hd
    by_cases h1 : k1 = k
    · subst h1
      simp [dGet] at h
      simp [dSet, h]
    · simp [dGet, h1] at h
      simp [dSet, h1, ih h]

/-- A write never removes keys: an empty missing-field list stays empty. -/
theorem missingOf_dSet_nil {d : Dict} {req : List String} (k : String) (v : PyVal)
    (h : missingOf d req = []) : missingOf (dSet d k v) req = [] := by
  rw [missingOf, List.filter_eq_nil_iff] at h ⊢
  intro a ha
  by_cases hk : a = k
  · subst hk
    simp [dGet_dSet_self]
  · rw [dGet_dSet_ne _ hk]
    exact h a ha

/-- A NO-EVAL-coded verdict string is not the PASS literal. -/
theorem noeval_app_ne_pass (x : String) : ("NO-EVAL(" ++ x ++ ")") ≠ "PASS" := by
  intro h
  have h2 := congrArg String.data h
  simp [String.data_append] at h2

/-- A FAIL-coded verdict string is not the PASS literal. -/
theorem fail_app_ne_pass (x : String) : ("FAIL(" ++ x ++ ")") ≠ "PASS" := by
  intro h
  have h2 := congrArg String.data h
  simp [String.data_append] at h2

/-- Inversion of `certFails`. -/
theorem certFails_true_iff {k : String} {v : PyVal} :
    certFails (k, v) = true ↔
    ∃ vd s, v = .dict vd ∧ dGetD vd "verdict" PyVal.none = .str s ∧
      (pyStartsWith s "NO-EVAL" || pyStartsWith s "FAIL") = true := by
  cases v with
  | dict vd =>
    cases hv : dGetD vd "verdict" PyVal.none <;> simp [certFails, hv]
  | none => simp [certFails]
  | bool b => simp [certFails]
  | int n => simp [certFails]
  | float q => simp [certFails]
  | str s => simp [certFails]
  | list xs => simp [certFails]

/-- The certificates gate steps over a non-failing entry. -/
theorem certScan_cons_nonfail {k : String} {v : PyVal} {rest : Dict}
    (h : certFails (k, v) = false) :
    certScan ((k, v) :: rest) = certScan rest := by
  cases v with
  | dict vd =>
    cases hv : dGetD vd "verdict" PyVal.none with
    | str s =>
      have hb : (pyStartsWith s "NO-EVAL" || pyStartsWith s "FAIL") = false := by
        simpa [certFails, hv] using h
      simp [certScan, hv, hb]
    | none => simp [certScan, hv]
    | bool b => simp [certScan, hv]
    | int n => simp [certScan, hv]
    | float q => simp [certScan, hv]
    | list xs => simp [certScan, hv]
    | dict kvs => simp [certScan, hv]
  | none => simp [certScan]
  | bool b => simp [certScan]
  | int n => simp [certScan]
  | float q => simp [certScan]
  | str s => simp [certScan]
  | list xs => simp [certScan]

/-- The certificates gate returns at a failing entry, re-wrapping the
entry name (not the certificate verdict) into the result. -/
theorem certScan_cons_fail {k : String} {vd : Dict} {rest : Dict} {s : String}
    (hv : dGetD vd "verdict" PyVal.none = .str s)
    (hb : (pyStartsWith s "NO-EVAL" || pyStartsWith s "FAIL") = true) :
    certScan ((k, .dict vd) :: rest)
      = some (if pyStartsWith s "NO-EVAL" = true
              then ("NO-EVAL(" ++ ("CERTS_" ++ k) ++ ")", "CERTS_" ++ k)
              else ("FAIL(" ++ ("CERTS_" ++ k) ++ ")", "CERTS_" ++ k)) := by
  by_cases hn : pyStartsWith s "NO-EVAL" = true
  · simp [certScan, hv, hn]
  · have hf : pyStartsWith s "FAIL" = true := by
      rcases Bool.or_eq_true_iff.mp hb with h1 | h1
      · exact absurd h1 hn
      · exact h1
    simp [certScan, hv, hn, hf]

/-- The certificates gate finds nothing exactly when no entry fails. -/
theorem certScan_eq_none_iff (certs : Dict) :
    certScan certs = Option.none ↔ ∀ kv ∈ certs, certFails kv = false := by
  induction certs with
  | nil => simp [certScan]
  | cons kv rest ih =>
    obtain ⟨k, v⟩ := kv
    by_cases hfail : certFails (k, v) = true
    · rcases certFails_true_iff.mp hfail with ⟨vd, s, rfl, hv, hb⟩
      rw [certScan_cons_fail hv hb]
      constructor
      · intro h
        exact absurd h (by simp)
      · intro h
        exact absurd (h (k, .dict vd) (by simp)) (by simp [hfail])
    · have h0 : certFails (k, v) = false := by simpa using hfail
      rw [certScan_cons_nonfail h0]
      constructor
      · intro h kv2 hm
        rcases List.mem_cons.mp hm with rfl | hm2
        · exact h0
        · exact (ih.mp h) kv2 hm2
      · intro h
        exact ih.mpr fun kv2 hm => h kv2 (List.mem_cons_of_mem _ hm)

/-- Whatever the certificates gate returns is never a PASS verdict. -/
theorem certScan_some_ne_pass {certs : Dict} {r : String × String}
    (h : certScan certs = some r) : r.1 ≠ "PASS" := by
  induction certs with
  | nil => simp [certScan] at h
  | cons kv rest ih =>
    obtain ⟨k, v⟩ := kv
    by_cases hfail : certFails (k, v) = true
    · rcases certFails_true_iff.mp hfail with ⟨vd, s, rfl, hv, hb⟩
      rw [certScan_cons_fail hv hb] at h
      by_cases hn : pyStartsWith s "NO-EVAL" = true
      · rw [if_pos hn] at h
        cases h.symm
        exact noeval_app_ne_pass _
      · rw [if_neg hn] at h
        cases h.symm
        exact fail_app_ne_pass _
    · rw [certScan_cons_nonfail (by simpa using hfail)] at h
      exact ih h

/-- Inversion of `lockFails`. -/
theorem lockFails_true_iff {k : String} {v : PyVal} :
    lockFails (k, v) = true ↔
    ∃ vd, v = .dict vd ∧ pyTruthy (dGetD vd "pass" (.bool false)) = false := by
  cases v <;> simp [lockFails]

/-- The locks loop steps over a passing or non-dict entry. -/
theorem lockScan_cons_ok {k : String} {v : PyVal} {rest : Dict}
    (h : lockFails (k, v) = false) :
    lockScan ((k, v) :: rest) = lockScan rest := by
  cases v with
  | dict vd =>
    have ht : pyTruthy (dGetD vd "pass" (.bool false)) = true := by
      simpa [lockFails] using h
    simp [lockScan, ht]
  | none => simp [lockScan]
  | bool b => simp [lockScan]
  | int n => simp [lockScan]
  | float q => simp [lockScan]
  | str s => simp [lockScan]
  | list xs => simp [lockScan]

/-- The locks loop returns at the first failing lock, keyed by its id,
picking NO-EVAL against FAIL from the stored verdict tag. -/
theorem lockScan_cons_fail {k : String} {vd rest : Dict} {s : String}
    (h : pyTruthy (dGetD vd "pass" (.bool false)) = false)
    (hv : dGetD vd "verdict" (PyVal.str "FAIL") = .str s) :
    lockScan ((k, .dict vd) :: rest)
      = (if pyStartsWith s "NO-EVAL" = true
         then ("NO-EVAL(" ++ k ++ ")", k) else ("FAIL(" ++ k ++ ")", k)) := by
  by_cases hn : pyStartsWith s "NO-EVAL" = true <;> simp [lockScan, h, hv, hn]

/-- A failing lock at the head never yields PASS. -/
theorem lockScan_cons_fail_ne_pass {k : String} {vd rest : Dict}
    (h : pyTruthy (dGetD vd "pass" (.bool false)) = false) :
    (lockScan ((k, .dict vd) :: rest)).1 ≠ "PASS" := by
  cases hv : dGetD vd "verdict" (PyVal.str "FAIL") with
  | str s =>
    rw [lockScan_cons_fail h hv]
    by_cases hn : pyStartsWith s "NO-EVAL" = true
    · rw [if_pos hn]
      exact noeval_app_ne_pass _
    · rw [if_neg hn]
      exact fail_app_ne_pass _
  | none => simp [lockScan, h, hv]; exact fail_app_ne_pass _
  | bool b => simp [lockScan, h, hv]; exact fail_app_ne_pass _
  | int n => simp [lockScan, h, hv]; exact fail_app_ne_pass _
  | float q => simp [lockScan, h, hv]; exact fail_app_ne_pass _
  | list xs => simp [lockScan, h, hv]; exact fail_app_ne_pass _
  | dict kvs => simp [lockScan, h, hv]; exact fail_app_ne_pass _

/-- If some lock entry fails, the locks loop does not return PASS. -/
theorem lockScan_ne_pass {locks : Dict}
    (h : ∃ kv ∈ locks, lockFails kv = true) : (lockScan locks).1 ≠ "PASS" := by
  induction locks with
  | nil => simp at h
  | cons kv rest ih =>
    obtain ⟨k, v⟩ := kv
    by_cases hfail : lockFails (k, v) = true
    · rcases lockFails_true_iff.mp hfail with ⟨vd, rfl, hp⟩
      exact lockScan_cons_fail_ne_pass hp
    · rw [lockScan_cons_ok (by simpa using hfail)]
      rcases h with ⟨kv2, hm, hf⟩
      rcases List.mem_cons.mp hm with rfl | hm2
      · exact absurd hf hfail
      · exact ih ⟨kv2, hm2, hf⟩

/-! ## Claim C1 -/

/-- C1 counterexample: with certificates `{A: FAIL(x), B: NO-EVAL(y)}` and
no locks, `compute_final_verdict` returns the FAIL-class verdict
`FAIL(CERTS_A)` although a NO-EVAL-class certificate is among its inputs,
so the combined verdict's class is not the highest-priority class present
(the claim predicts NO-EVAL). -/
theorem C1_counterexample :
    compute_final_verdict (Locks.asDict [])
      [("A", PyVal.dict [("verdict", PyVal.str "FAIL(x)")]),
       ("B", PyVal.dict [("verdict", PyVal.str "NO-EVAL(y)")])]
      = ("FAIL(CERTS_A)", "CERTS_A")
    ∧ pyStartsWith "FAIL(CERTS_A)" "NO-EVAL" = false
    ∧ pyStartsWith "NO-EVAL(y)" "NO-EVAL" = true := by decide

/-- C1 (amended): the judge-pipeline `combine` does return the
highest-priority class among its judge results (NO-EVAL beats FAIL beats
PASS), and `compute_final_verdict` — whose single certificate scan can
return a FAIL class even when a NO-EVAL-class certificate appears later —
still never returns PASS when any certificate entry or lock entry
failed. -/
theorem C1_priority_totality :
    (∀ rs : List JudgeResult,
      ((∃ r ∈ rs, pyStartsWith r.verdict "NO-EVAL" = true) →
        pyStartsWith (combine rs).1 "NO-EVAL" = true) ∧
      ((∀ r ∈ rs, pyStartsWith r.verdict "NO-EVAL" = false) →
        (∃ r ∈ rs, pyStartsWith r.verdict "FAIL" = true) →
        pyStartsWith (combine rs).1 "FAIL" = true) ∧
      ((∀ r ∈ rs, pyStartsWith r.verdict "NO-EVAL" = false) →
        (∀ r ∈ rs, pyStartsWith r.verdict "FAIL" = false) →
        combine rs = ("PASS", ""))) ∧
    (∀ (locks certs : Dict),
      ((∃ kv ∈ certs, certFails kv = true) ∨ (∃ kv ∈ locks, lockFails kv = true)) →
      (compute_final_verdict (Locks.asDict locks) certs).1 ≠ "PASS") := by
  constructor
  · intro rs
    refine ⟨?_, ?_, ?_⟩
    · rintro ⟨r, hr, hp⟩
      rcases h : rs.find? (fun x => pyStartsWith x.verdict "NO-EVAL") with _ | r0
      · rw [List.find?_eq_none] at h
        exact absurd hp (h r hr)
      · have hp0 := List.find?_some h
        have e : combine rs = (r0.verdict, r0.code) := by simp [combine, h]
        rw [e]
        simpa using hp0
    · intro hno hfail
      have h : rs.find? (fun x => pyStartsWith x.verdict "NO-EVAL") = Option.none := by
        rw [List.find?_eq_none]
        intro x hx
        simp [hno x hx]
      rcases hfail with ⟨r, hr, hp⟩
      rcases h2 : rs.find? (fun x => pyStartsWith x.verdict "FAIL") with _ | r0
      · rw [List.find?_eq_none] at h2
        exact absurd hp (h2 r hr)
      · have hp0 := List.find?_some h2
        have e : combine rs = (r0.verdict, r0.code) := by simp [combine, h, h2]
        rw [e]
        simpa using hp0
    · intro hno hfail
      have h : rs.find? (fun x => pyStartsWith x.verdict "NO-EVAL") = Option.none := by
        rw [List.find?_eq_none]
        intro x hx
        simp [hno x hx]
      have h2 : rs.find? (fun x => pyStartsWith x.verdict "FAIL") = Option.none := by
        rw [List.find?_eq_none]
        intro x hx
        simp [hfail x hx]
      simp [combine, h, h2]
  · intro locks certs hfail
    rcases hex : certScan certs with _ | r
    · rcases hfail with hc | hl
      · rcases hc with ⟨kv, hm, hf⟩
        exact absurd hf (by simp [(certScan_eq_none_iff certs).mp hex kv hm])
      · have e : compute_final_verdict (Locks.asDict locks) certs = lockScan locks := by
          simp [compute_final_verdict, hex, normalizeLocks]
        rw [e]
        exact lockScan_ne_pass hl
    · have e : compute_final_verdict (Locks.asDict locks) certs = r := by
        simp [compute_final_verdict, hex]
      rw [e]
      exact certScan_some_ne_pass hex

/-- C1 witness: the amended theorem applied at concrete inputs — one
NO-EVAL judge result, and one failing certificate entry. -/
theorem C1_priority_totality_witness :
    pyStartsWith (combine [⟨"j", "NO-EVAL(X)", "X", "m"⟩]).1 "NO-EVAL" = true ∧
    (compute_final_verdict (Locks.asDict [])
      [("A", PyVal.dict [("verdict", PyVal.str "FAIL(x)")])]).1 ≠ "PASS" :=
  ⟨(C1_priority_totality.1 [⟨"j", "NO-EVAL(X)", "X", "m"⟩]).1
      ⟨⟨"j", "NO-EVAL(X)", "X", "m"⟩, by simp, by decide⟩,
    C1_priority_totality.2 [] [("A", PyVal.dict [("verdict", PyVal.str "FAIL(x)")])]
      (Or.inl ⟨("A", PyVal.dict [("verdict", PyVal.str "FAIL(x)")]), by simp, by decide⟩)⟩

/-! ## Claim C2 -/

/-- C2 counterexample: with certificates `{RFS: FAIL(RFS3), IO: NO-EVAL(IO3)}`
the scan does not return the NO-EVAL certificate first as the claim
requires: it returns at the FAIL certificate seen earlier in the single
pass, and it returns the re-wrapped code `FAIL(CERTS_RFS)` rather than the
certificate's own verdict. -/
theorem C2_counterexample :
    compute_final_verdict (Locks.asDict [("L1", PyVal.dict [("pass", PyVal.bool true)])])
      [("RFS", PyVal.dict [("verdict", PyVal.str "FAIL(RFS3)")]),
       ("IO", PyVal.dict [("verdict", PyVal.str "NO-EVAL(IO3)")])]
      = ("FAIL(CERTS_RFS)", "CERTS_RFS")
    ∧ ("FAIL(CERTS_RFS)", "CERTS_RFS") ≠ ("NO-EVAL(IO3)", "CERTS_IO") := by decide

/-- C2 (amended): `compute_final_verdict` scans certificates once, in
order; the first entry whose verdict string is NO-EVAL-class or FAIL-class
decides the outcome as `NO-EVAL(CERTS_name)` resp. `FAIL(CERTS_name)` with
`first_reason = CERTS_name` (a NO-EVAL certificate after a FAIL one is
never reached).  Only if no certificate fails does the first lock in
declared order with a falsy `pass` decide — NO-EVAL(id) if its verdict tag
is NO-EVAL-class, else FAIL(id) — with no backtracking; with locks
`{L1: pass=true, L2: pass=false, verdict=FAIL(L2)}` and no certificates the
result is `("FAIL(L2)", "L2")`. -/
theorem C2_first_match :
    (∀ (locks : Locks) (pre post : Dict) (k : String) (vd : Dict) (s : String),
      (∀ kv ∈ pre, certFails kv = false) →
      dGetD vd "verdict" PyVal.none = .str s →
      (pyStartsWith s "NO-EVAL" || pyStartsWith s "FAIL") = true →
      compute_final_verdict locks (pre ++ (k, .dict vd) :: post)
        = (if pyStartsWith s "NO-EVAL" = true
           then ("NO-EVAL(" ++ ("CERTS_" ++ k) ++ ")", "CERTS_" ++ k)
           else ("FAIL(" ++ ("CERTS_" ++ k) ++ ")", "CERTS_" ++ k))) ∧
    (∀ (certs : Dict) (pre post : Dict) (k : String) (vd : Dict) (s : String),
      (∀ kv ∈ certs, certFails kv = false) →
      (∀ kv ∈ pre, lockFails kv = false) →
      pyTruthy (dGetD vd "pass" (.bool false)) = false →
      dGetD vd "verdict" (.str "FAIL") = .str s →
      compute_final_verdict (Locks.asDict (pre ++ (k, .dict vd) :: post)) certs
        = (if pyStartsWith s "NO-EVAL" = true
           then ("NO-EVAL(" ++ k ++ ")", k) else ("FAIL(" ++ k ++ ")", k))) ∧
    compute_final_verdict
      (Locks.asDict [("L1", PyVal.dict [("pass", PyVal.bool true)]),
                     ("L2", PyVal.dict [("pass", PyVal.bool false),
                                        ("verdict", PyVal.str "FAIL(L2)")])])
      [] = ("FAIL(L2)", "L2") := by
  refine ⟨?_, ?_, by decide⟩
  · intro locks pre post k vd s hpre hv hb
    have e : certScan (pre ++ (k, .dict vd) :: post) = certScan ((k, .dict vd) :: post) := by
      induction pre with
      | nil => rfl
      | cons kv rest ih =>
        rw [List.cons_append, certScan_cons_nonfail (hpre kv (by simp))]
        exact ih fun kv2 hm => hpre kv2 (List.mem_cons_of_mem _ hm)
    rw [compute_final_verdict, e, certScan_cons_fail hv hb]
  · intro certs pre post k vd s hcert hpre hfail hv
    have e0 : certScan certs = Option.none := (certScan_eq_none_iff certs).mpr hcert
    have e : lockScan (pre ++ (k, .dict vd) :: post) = lockScan ((k, .dict vd) :: post) := by
      induction pre with
      | nil => rfl
      | cons kv rest ih =>
        rw [List.cons_append, lockScan_cons_ok (hpre kv (by simp))]
        exact ih fun kv2 hm => hpre kv2 (List.mem_cons_of_mem _ hm)
    rw [compute_final_verdict, e0]
    show lockScan (normalizeLocks (Locks.asDict (pre ++ (k, .dict vd) :: post)))
      = _
    rw [normalizeLocks, e, lockScan_cons_fail hfail hv]

/-- C2 witness: the amended theorem applied at concrete inputs — a
leading non-failing certificate before a NO-EVAL one, and a passing lock
before a failing one. -/
theorem C2_first_match_witness :
    compute_final_verdict (Locks.asDict [])
      ([("PA", PyVal.dict [("verdict", PyVal.str "SKIP")])] ++
        ("IO", PyVal.dict [("verdict", PyVal.str "NO-EVAL(IO3)")]) :: [])
      = ("NO-EVAL(" ++ ("CERTS_" ++ "IO") ++ ")", "CERTS_" ++ "IO") ∧
    compute_final_verdict
      (Locks.asDict ([("L1", PyVal.dict [("pass", PyVal.bool true)])] ++
        ("L2", PyVal.dict [("pass", PyVal.bool false),
                           ("verdict", PyVal.str "FAIL(L2)")]) :: [])) []
      = ("FAIL(" ++ "L2" ++ ")", "L2") := by
  constructor
  · have h := (C2_first_match.1 (Locks.asDict [])
      [("PA", PyVal.dict [("verdict", PyVal.str "SKIP")])] []
      "IO" [("verdict", PyVal.str "NO-EVAL(IO3)")] "NO-EVAL(IO3)"
      (by decide) rfl (by decide))
    rw [h]
    decide
  · have h := (C2_first_match.2.1 []
      [("L1", PyVal.dict [("pass", PyVal.bool true)])] []
      "L2" [("pass", PyVal.bool false), ("verdict", PyVal.str "FAIL(L2)")] "FAIL(L2)"
      (by decide) (by decide) (by decide) rfl)
    rw [h]
    decide

/-! ## Claim C3 -/

/-- C3 counterexample: a pre-sweep FAIL verdict is not left unchanged —
when the PCN sweep reports a flip, `run_case` overwrites FAIL with
`NO-EVAL(unstable_under_PCN_or_PCD)` (only NO-EVAL verdicts are protected
by the first branch). -/
theorem C3_counterexample :
    applyMeta "FAIL(SK_causality)"
      ⟨false, true, [], [], MAX_WORK⟩ ⟨true, false, [], MAX_WORK⟩
      = "NO-EVAL(unstable_under_PCN_or_PCD)"
    ∧ "NO-EVAL(unstable_under_PCN_or_PCD)" ≠ "FAIL(SK_causality)"
    ∧ pyStartsWith "FAIL(SK_causality)" "NO-EVAL" = false := by decide

/-- C3 (amended): the downgrade stage of `run_case` leaves a NO-EVAL
pre-sweep verdict unchanged; any other verdict — including FAIL — becomes
NO-EVAL(unstable_under_PCN_or_PCD) when the PCN sweep flips, PCN skipped
anything, or the PCD sweep flips (PCD skips are not part of this
condition); a stable PASS with either sweep's pass flag false becomes
NO-EVAL(insufficient_PCN_or_PCD_coverage); everything else is unchanged,
so the stage never moves a verdict anywhere but to a NO-EVAL class. -/
theorem C3_downgrade_policy :
    ∀ (v : String) (pcn : PcnResult) (pcd : PcdResult),
      (pyStartsWith v "NO-EVAL" = true → applyMeta v pcn pcd = v) ∧
      (pyStartsWith v "NO-EVAL" = false →
        (pcn.flip = true ∨ pcn.skipped ≠ [] ∨ pcd.flip = true) →
        applyMeta v pcn pcd = "NO-EVAL(unstable_under_PCN_or_PCD)") ∧
      (v = "PASS" → pcn.flip = false → pcn.skipped = [] → pcd.flip = false →
        (pcn.pass = false ∨ pcd.pass = false) →
        applyMeta v pcn pcd = "NO-EVAL(insufficient_PCN_or_PCD_coverage)") ∧
      (pyStartsWith v "NO-EVAL" = false → pcn.flip = false → pcn.skipped = [] →
        pcd.flip = false → v ≠ "PASS" → applyMeta v pcn pcd = v) ∧
      (applyMeta v pcn pcd = v ∨ pyStartsWith (applyMeta v pcn pcd) "NO-EVAL" = true) := by
  intro v pcn pcd
  refine ⟨?_, ?_, ?_, ?_, ?_⟩
  · intro h
    simp [applyMeta, h]
  · intro h hU
    have hu : (pcn.flip || !pcn.skipped.isEmpty || pcd.flip) = true := by
      rcases hU with h1 | h1 | h1 <;> simp [h1, List.isEmpty_eq_false]
    simp [applyMeta, h, hu]
  · rintro rfl h1 h2 h3 hI
    have hi : (!pcn.pass || !pcd.pass) = true := by
      rcases hI with h4 | h4 <;> simp [h4]
    have hP : pyStartsWith "PASS" "NO-EVAL" = false := by decide
    simp [applyMeta, h1, h2, h3, hi, hP]
  · intro h h1 h2 h3 hv
    simp [applyMeta, h, h1, h2, h3, hv]
  · by_cases h : pyStartsWith v "NO-EVAL" = true
    · exact Or.inl (by simp [applyMeta, h])
    · by_cases hu : (pcn.flip || !pcn.skipped.isEmpty || pcd.flip) = true
      · refine Or.inr ?_
        have e : applyMeta v pcn pcd = "NO-EVAL(unstable_under_PCN_or_PCD)" := by
          simp [applyMeta, h, hu]
        rw [e]
        decide
      · by_cases hp : ((v == "PASS") && (!pcn.pass || !pcd.pass)) = true
        · refine Or.inr ?_
          have e : applyMeta v pcn pcd = "NO-EVAL(insufficient_PCN_or_PCD_coverage)" := by
            simp only [applyMeta]
            rw [if_neg (by simp [h]), if_neg (by simp [hu]), if_pos hp]
          rw [e]
          decide
        · refine Or.inl ?_
          simp only [applyMeta]
          rw [if_neg (by simp [h]), if_neg (by simp [hu]), if_neg (by simp [hp])]

/-- C3 witness: the amended theorem applied at concrete inputs — a
NO-EVAL verdict untouched, and a stable PASS with a failing PCN pass flag
downgraded to the insufficient-coverage code. -/
theorem C3_downgrade_policy_witness :
    applyMeta "NO-EVAL(X)" ⟨true, false, [], [], MAX_WORK⟩ ⟨true, false, [], MAX_WORK⟩
      = "NO-EVAL(X)" ∧
    applyMeta "PASS" ⟨false, false, [], [], MAX_WORK⟩ ⟨true, false, [], MAX_WORK⟩
      = "NO-EVAL(insufficient_PCN_or_PCD_coverage)" :=
  ⟨(C3_downgrade_policy "NO-EVAL(X)" ⟨true, false, [], [], MAX_WORK⟩
      ⟨true, false, [], MAX_WORK⟩).1 (by decide),
   (C3_downgrade_policy "PASS" ⟨false, false, [], [], MAX_WORK⟩
      ⟨true, false, [], MAX_WORK⟩).2.2.1 rfl rfl rfl rfl (Or.inl rfl)⟩

/-! ## PCN sweep loop lemmas -/

/-- With the baseline verdict fixed, the loop flips exactly when some
executed run's verdict string differs from it. -/
theorem pcnLoop_flip_some {α : Type} (f : Cfg α → RunResult) (cfg : Cfg α) (b : String) :
    ∀ items : List Int,
      (pcnLoop f cfg items (some b)).1 = false ↔
      ∀ r ∈ (pcnLoop f cfg items (some b)).2.1, r.verdict = b := by
  intro items
  induction items with
  | nil => simp [pcnLoop]
  | cons r rest ih =>
    by_cases hw : work (scaleGrids cfg r) > MAX_WORK
    · simp only [pcnLoop, if_pos hw]
      exact ih
    · simp only [pcnLoop, if_neg hw]
      simp only [List.mem_cons]
      constructor
      · intro h x hx
        have h1 : ((f (scaleGrids cfg r)).verdict != b) = false := by
          rcases Bool.or_eq_false_iff.mp h with ⟨h1, _⟩
          exact h1
        have h2 := (Bool.or_eq_false_iff.mp h).2
        rcases hx with rfl | hx2
        · simpa using h1
        · exact ih.mp h2 x hx2
      · intro h
        refine Bool.or_eq_false_iff.mpr ⟨?_, ?_⟩
        · have := h ⟨r, (f (scaleGrids cfg r)).verdict⟩ (Or.inl rfl)
          simpa using this
        · exact ih.mpr fun x hx => h x (Or.inr hx)

/-- Before any run has executed, the loop flips exactly when two executed
runs carry different verdict strings. -/
theorem pcnLoop_flip_none {α : Type} (f : Cfg α → RunResult) (cfg : Cfg α) :
    ∀ items : List Int,
      (pcnLoop f cfg items Option.none).1 = false ↔
      ∀ r1 ∈ (pcnLoop f cfg items Option.none).2.1,
        ∀ r2 ∈ (pcnLoop f cfg items Option.none).2.1, r1.verdict = r2.verdict := by
  intro items
  induction items with
  | nil => simp [pcnLoop]
  | cons r rest ih =>
    by_cases hw : work (scaleGrids cfg r) > MAX_WORK
    · simp only [pcnLoop, if_pos hw]
      exact ih
    · simp only [pcnLoop, if_neg hw]
      simp only [List.mem_cons]
      constructor
      · intro h x hx y hy
        have hall := (pcnLoop_flip_some f cfg _ rest).mp h
        rcases hx with rfl | hx2
        · rcases hy with rfl | hy2
          · rfl
          · exact (hall y hy2).symm
        · rcases hy with rfl | hy2
          · exact hall x hx2
          · exact (hall x hx2).trans (hall y hy2).symm
      · intro h
        refine (pcnLoop_flip_some f cfg _ rest).mpr fun x hx => ?_
        exact h x (Or.inr hx) ⟨r, (f (scaleGrids cfg r)).verdict⟩ (Or.inl rfl)

/-- Every executed run's scaled grid respects the work cap. -/
theorem pcnLoop_runs_le {α : Type} (f : Cfg α → RunResult) (cfg : Cfg α) :
    ∀ (items : List Int) (base : Option String) (run : PcnRun),
      run ∈ (pcnLoop f cfg items base).2.1 →
      work (scaleGrids cfg run.refinement) ≤ MAX_WORK := by
  intro items
  induction items with
  | nil => intro base run h; simp [pcnLoop] at h
  | cons r rest ih =>
    intro base run h
    by_cases hw : work (scaleGrids cfg r) > MAX_WORK
    · rw [show (pcnLoop f cfg (r :: rest) base) = _ from rfl] at h
      simp only [pcnLoop, if_pos hw] at h
      exact ih base run h
    · simp only [pcnLoop, if_neg hw] at h
      cases base with
      | none =>
        rcases List.mem_cons.mp h with rfl | h2
        · simpa using le_of_not_lt hw
        · exact ih _ run h2
      | some b =>
        rcases List.mem_cons.mp h with rfl | h2
        · simpa using le_of_not_lt hw
        · exact ih _ run h2

/-- Every configuration passed to `run_once` respects the work cap. -/
theorem pcnLoop_trace_le {α : Type} (f : Cfg α → RunResult) (cfg : Cfg α) :
    ∀ (items : List Int) (base : Option String) (c : Cfg α),
      c ∈ (pcnLoop f cfg items base).2.2.2 → work c ≤ MAX_WORK := by
  intro items
  induction items with
  | nil => intro base c h; simp [pcnLoop] at h
  | cons r rest ih =>
    intro base c h
    by_cases hw : work (scaleGrids cfg r) > MAX_WORK
    · simp only [pcnLoop, if_pos hw] at h
      exact ih base c h
    · simp only [pcnLoop, if_neg hw] at h
      cases base with
      | none =>
        rcases List.mem_cons.mp h with rfl | h2
        · exact le_of_not_lt hw
        · exact ih _ c h2
      | some b =>
        rcases List.mem_cons.mp h with rfl | h2
        · exact le_of_not_lt hw
        · exact ih _ c h2

/-- Every refinement whose scaled grid exceeds the cap lands in the
skipped list. -/
theorem pcnLoop_mem_skipped {α : Type} (f : Cfg α → RunResult) (cfg : Cfg α) :
    ∀ (items : List Int) (base : Option String) (r : Int),
      r ∈ items → work (scaleGrids cfg r) > MAX_WORK →
      ∃ sk ∈ (pcnLoop f cfg items base).2.2.1, sk.refinement = r := by
  intro items
  induction items with
  | nil => intro base r h; simp at h
  | cons r0 rest ih =>
    intro base r hm hw
    rcases List.mem_cons.mp hm with rfl | h2
    · simp only [pcnLoop, if_pos hw]
      exact ⟨_, List.mem_cons_self _ _, rfl⟩
    · by_cases hw0 : work (scaleGrids cfg r0) > MAX_WORK
      · simp only [pcnLoop, if_pos hw0]
        rcases ih base r h2 hw with ⟨sk, hsk, he⟩
        exact ⟨sk, List.mem_cons_of_mem _ hsk, he⟩
      · simp only [pcnLoop, if_neg hw0]
        cases base with
        | none => exact ih _ r h2 hw
        | some b => exact ih _ r h2 hw

/-- The `flip` and `pass` fields of `pcd_sweep`, read off the definition:
`flip` scans the recorded runs for a verdict string that is neither the
baseline verdict nor the `SKIPPED(work_cap)` marker, and `pass` demands
no flip and no skipped run. -/
theorem pcd_flags {α : Type} (cfg : Cfg α) (f : Cfg α → RunResult) :
    (pcd_sweep cfg f).flip
      = ((pcd_sweep cfg f).runs.any
          fun x => !(x.verdict == (f cfg).verdict) && !(x.verdict == "SKIPPED(work_cap)")) ∧
    (pcd_sweep cfg f).pass
      = (!(pcd_sweep cfg f).flip &&
          (pcd_sweep cfg f).runs.all fun x => !(x.verdict == "SKIPPED(work_cap)")) :=
  ⟨rfl, rfl⟩

/-! ## Claim C4 -/

/-- C4 counterexample: a verdict change from FAIL(X) to FAIL(Y) — the
same un-parenthesized class — counts as a flip and fails the sweep, so
the claim that only a class change flips is false on the code. -/
theorem C4_counterexample :
    (pcn_sweep (⟨100, 100, mkRat 1 1, ()⟩ : Cfg Unit) [2]
        (fun c => if c.nOmega = 100 then ⟨"FAIL(X)"⟩ else ⟨"FAIL(Y)"⟩)).flip = true
    ∧ (pcn_sweep (⟨100, 100, mkRat 1 1, ()⟩ : Cfg Unit) [2]
        (fun c => if c.nOmega = 100 then ⟨"FAIL(X)"⟩ else ⟨"FAIL(Y)"⟩)).pass = false
    ∧ (pcn_sweep (⟨100, 100, mkRat 1 1, ()⟩ : Cfg Unit) [2]
        (fun c => if c.nOmega = 100 then ⟨"FAIL(X)"⟩ else ⟨"FAIL(Y)"⟩)).skipped = []
    ∧ (pcn_sweep (⟨100, 100, mkRat 1 1, ()⟩ : Cfg Unit) [2]
        (fun c => if c.nOmega = 100 then ⟨"FAIL(X)"⟩ else ⟨"FAIL(Y)"⟩)).runs.map
          PcnRun.verdict = ["FAIL(X)", "FAIL(Y)"]
    ∧ pyStartsWith "FAIL(X)" "FAIL" = true
    ∧ pyStartsWith "FAIL(Y)" "FAIL" = true := by decide

/-- C4 (amended): both sweeps compare full verdict strings.  The PCN
sweep passes exactly when no run was skipped and the verdict string is
identical across all executed runs, its flip flag being any string
change.  The PCD sweep passes exactly when no factor run was recorded as
SKIPPED(work_cap) and every factor run's verdict string equals the
baseline run's verdict; its flip flag is an executed run whose verdict
string differs from the baseline (skip records excluded).  Any change of
the verdict string counts as a flip, including a change of only the
parenthesized code such as FAIL(X) to FAIL(Y). -/
theorem C4_flip_is_string_change :
    ∀ {α : Type} (cfg : Cfg α) (refinements : List Int) (f : Cfg α → RunResult),
      ((pcn_sweep cfg refinements f).pass = true ↔
        (pcn_sweep cfg refinements f).skipped = [] ∧
        ∀ r1 ∈ (pcn_sweep cfg refinements f).runs,
          ∀ r2 ∈ (pcn_sweep cfg refinements f).runs, r1.verdict = r2.verdict) ∧
      ((pcn_sweep cfg refinements f).flip = false ↔
        ∀ r1 ∈ (pcn_sweep cfg refinements f).runs,
          ∀ r2 ∈ (pcn_sweep cfg refinements f).runs, r1.verdict = r2.verdict) ∧
      ((pcd_sweep cfg f).pass = true ↔
        (∀ x ∈ (pcd_sweep cfg f).runs, x.verdict ≠ "SKIPPED(work_cap)") ∧
        ∀ x ∈ (pcd_sweep cfg f).runs, x.verdict = (f cfg).verdict) ∧
      ((pcd_sweep cfg f).flip = false ↔
        ∀ x ∈ (pcd_sweep cfg f).runs,
          x.verdict = (f cfg).verdict ∨ x.verdict = "SKIPPED(work_cap)") := by
  intro α cfg refinements f
  have hflip : (pcn_sweep cfg refinements f).flip
      = (pcnLoop f cfg (1 :: refinements) Option.none).1 := rfl
  have hruns : (pcn_sweep cfg refinements f).runs
      = (pcnLoop f cfg (1 :: refinements) Option.none).2.1 := rfl
  have hskip : (pcn_sweep cfg refinements f).skipped
      = (pcnLoop f cfg (1 :: refinements) Option.none).2.2.1 := rfl
  have hpass : (pcn_sweep cfg refinements f).pass
      = (!(pcnLoop f cfg (1 :: refinements) Option.none).1 &&
          (pcnLoop f cfg (1 :: refinements) Option.none).2.2.1.isEmpty) := rfl
  obtain ⟨hdf, hdp⟩ := pcd_flags cfg f
  refine ⟨?_, ?_, ?_, ?_⟩
  · rw [hpass, hruns, hskip]
    rw [Bool.and_eq_true, Bool.not_eq_true']
    rw [pcnLoop_flip_none f cfg (1 :: refinements)]
    rw [List.isEmpty_iff]
    exact and_comm
  · rw [hflip, hruns]
    exact pcnLoop_flip_none f cfg (1 :: refinements)
  · rw [hdp, hdf, Bool.and_eq_true, Bool.not_eq_true']
    constructor
    · rintro ⟨hany, hall⟩
      rw [List.any_eq_false] at hany
      rw [List.all_eq_true] at hall
      have hns : ∀ x ∈ (pcd_sweep cfg f).runs, x.verdict ≠ "SKIPPED(work_cap)" := by
        intro x hx
        have h1 := hall x hx
        simpa using h1
      refine ⟨hns, ?_⟩
      intro x hx
      have hpx := hany x hx
      have h2 : (x.verdict == "SKIPPED(work_cap)") = false := by
        simpa using hns x hx
      simp only [h2, Bool.not_false, Bool.and_true, Bool.not_eq_true, Bool.not_eq_false,
        beq_iff_eq] at hpx
      simpa using hpx
    · rintro ⟨hns, heq⟩
      constructor
      · rw [List.any_eq_false]
        intro x hx
        have h1 : (x.verdict == (f cfg).verdict) = true := by
          simpa using heq x hx
        simp [h1]
      · rw [List.all_eq_true]
        intro x hx
        have h2 : (x.verdict == "SKIPPED(work_cap)") = false := by
          simpa using hns x hx
        simp [h2]
  · rw [hdf, List.any_eq_false]
    constructor
    · intro hall x hx
      have h1 := hall x hx
      by_cases hb : (x.verdict == (f cfg).verdict) = true
      · exact Or.inl (by simpa using hb)
      · right
        by_cases hc : (x.verdict == "SKIPPED(work_cap)") = true
        · simpa using hc
        · exfalso
          apply h1
          rw [Bool.and_eq_true]
          exact ⟨by simp [Bool.eq_false_iff.mpr hb], by simp [Bool.eq_false_iff.mpr hc]⟩
    · intro h x hx
      rcases h x hx with he | hs
      · have h1 : (x.verdict == (f cfg).verdict) = true := by simpa using he
        simp [h1]
      · have h1 : (x.verdict == "SKIPPED(work_cap)") = true := by simpa using hs
        simp [h1]

/-- C4 witness: the amended characterization applied to concrete sweeps
whose executed runs all agree with the baseline, which therefore pass. -/
theorem C4_flip_is_string_change_witness :
    (pcn_sweep (⟨100, 100, mkRat 1 1, ()⟩ : Cfg Unit) [2] (fun _ => ⟨"PASS"⟩)).pass = true
    ∧ (pcd_sweep (⟨100, 100, mkRat 1 1, ()⟩ : Cfg Unit) (fun _ => ⟨"PASS"⟩)).pass = true :=
  ⟨((C4_flip_is_string_change (⟨100, 100, mkRat 1 1, ()⟩ : Cfg Unit) [2]
      (fun _ => ⟨"PASS"⟩)).1).mpr ⟨by decide, by decide⟩,
   ((C4_flip_is_string_change (⟨100, 100, mkRat 1 1, ()⟩ : Cfg Unit) [2]
      (fun _ => ⟨"PASS"⟩)).2.2.1).mpr ⟨by decide, by decide⟩⟩

/-! ## Claim C5 -/

/-- C5: any refinement whose scaled grids push the estimated work
`2*n_time*n_omega` over the 5e7 cap is recorded in `skipped`, never
appears among the executed runs, is never passed to `run_once` (its
scaled configuration is absent from the call trace, every traced call
being under the cap), and a non-empty skipped list forces the sweep's
pass flag to false. -/
theorem C5_work_cap :
    ∀ {α : Type} (cfg : Cfg α) (refinements : List Int) (f : Cfg α → RunResult) (r : Int),
      (r ∈ 1 :: refinements → work (scaleGrids cfg r) > MAX_WORK →
        (∃ sk ∈ (pcn_sweep cfg refinements f).skipped, sk.refinement = r) ∧
        (∀ run ∈ (pcn_sweep cfg refinements f).runs, run.refinement ≠ r) ∧
        scaleGrids cfg r ∉ (pcn_sweepT cfg refinements f).2) ∧
      ((pcn_sweep cfg refinements f).skipped ≠ [] → (pcn_sweep cfg refinements f).pass = false) ∧
      (∀ c ∈ (pcn_sweepT cfg refinements f).2, work c ≤ MAX_WORK) := by
  intro α cfg refinements f r
  refine ⟨?_, ?_, ?_⟩
  · intro hm hw
    refine ⟨pcnLoop_mem_skipped f cfg _ _ r hm hw, ?_, ?_⟩
    · intro run hrun he
      have := pcnLoop_runs_le f cfg (1 :: refinements) Option.none run hrun
      rw [he] at this
      exact absurd hw (not_lt.mpr this)
    · intro hc
      have := pcnLoop_trace_le f cfg (1 :: refinements) Option.none _ hc
      exact absurd hw (not_lt.mpr this)
  · intro hne
    have he : (pcnLoop f cfg (1 :: refinements) Option.none).2.2.1.isEmpty = false := by
      rw [List.isEmpty_eq_false]
      exact hne
    show (!(pcnLoop f cfg (1 :: refinements) Option.none).1 &&
        (pcnLoop f cfg (1 :: refinements) Option.none).2.2.1.isEmpty) = false
    rw [he, Bool.and_false]
  · intro c hc
    exact pcnLoop_trace_le f cfg (1 :: refinements) Option.none c hc

/-- C5 witness: a 5000-point grid doubled by refinement 2 exceeds the
cap; the sweep records it as skipped and fails. -/
theorem C5_work_cap_witness :
    (∃ sk ∈ (pcn_sweep (⟨5000, 5000, mkRat 1 1, ()⟩ : Cfg Unit) [2]
        (fun _ => ⟨"PASS"⟩)).skipped, sk.refinement = 2) ∧
    (pcn_sweep (⟨5000, 5000, mkRat 1 1, ()⟩ : Cfg Unit) [2]
        (fun _ => ⟨"PASS"⟩)).pass = false :=
  ⟨((C5_work_cap (⟨5000, 5000, mkRat 1 1, ()⟩ : Cfg Unit) [2] (fun _ => ⟨"PASS"⟩) 2).1
      (by decide) (by decide)).1,
    (C5_work_cap (⟨5000, 5000, mkRat 1 1, ()⟩ : Cfg Unit) [2] (fun _ => ⟨"PASS"⟩) 2).2.1
      (by decide)⟩

/-! ## Claim C10 -/

/-- C10: `pcd_sweep` always runs the nested evaluation once on the
unmodified configuration first — before any work-cap check — and when the
configuration's own work `2*n_time*n_omega` exceeds the 5e7 cap, that
baseline call is the only call while all three tolerance-factor runs are
recorded as SKIPPED(work_cap). -/
theorem C10_pcd_baseline :
    ∀ {α : Type} (cfg : Cfg α) (f : Cfg α → RunResult),
      (pcd_sweepT cfg f).2.head? = some cfg ∧
      (work cfg > MAX_WORK →
        (pcd_sweepT cfg f).2 = [cfg] ∧
        (pcd_sweep cfg f).runs
          = [⟨mkRat 1 10, "SKIPPED(work_cap)"⟩, ⟨mkRat 1 1, "SKIPPED(work_cap)"⟩,
             ⟨mkRat 10 1, "SKIPPED(work_cap)"⟩]) := by
  intro α cfg f
  have hw : ∀ x : ℚ, work { cfg with epsPsd := x } = work cfg := fun _ => rfl
  constructor
  · rfl
  · intro h
    constructor
    · show (pcd_sweepT cfg f).2 = [cfg]
      simp only [pcd_sweepT, pcdFactors, List.foldl]
      rw [if_pos (show work { cfg with epsPsd := pyMulQ cfg.epsPsd (mkRat 1 10) } > MAX_WORK from h),
        if_pos (show work { cfg with epsPsd := pyMulQ cfg.epsPsd (mkRat 1 1) } > MAX_WORK from h),
        if_pos (show work { cfg with epsPsd := pyMulQ cfg.epsPsd (mkRat 10 1) } > MAX_WORK from h)]
    · show (pcd_sweep cfg f).runs = _
      simp only [pcd_sweep, pcd_sweepT, pcdFactors, List.foldl]
      rw [if_pos (show work { cfg with epsPsd := pyMulQ cfg.epsPsd (mkRat 1 10) } > MAX_WORK from h),
        if_pos (show work { cfg with epsPsd := pyMulQ cfg.epsPsd (mkRat 1 1) } > MAX_WORK from h),
        if_pos (show work { cfg with epsPsd := pyMulQ cfg.epsPsd (mkRat 10 1) } > MAX_WORK from h)]
      rfl

/-- C10 witness: a 6000-by-6000 grid exceeds the cap, yet the baseline
call on the unmodified configuration is still made (and is the only
call). -/
theorem C10_pcd_baseline_witness :
    (pcd_sweepT (⟨6000, 6000, mkRat 1 1, ()⟩ : Cfg Unit) (fun _ => ⟨"PASS"⟩)).2.head?
      = some ⟨6000, 6000, mkRat 1 1, ()⟩ ∧
    (pcd_sweepT (⟨6000, 6000, mkRat 1 1, ()⟩ : Cfg Unit) (fun _ => ⟨"PASS"⟩)).2
      = [⟨6000, 6000, mkRat 1 1, ()⟩] :=
  ⟨(C10_pcd_baseline (⟨6000, 6000, mkRat 1 1, ()⟩ : Cfg Unit) (fun _ => ⟨"PASS"⟩)).1,
    ((C10_pcd_baseline (⟨6000, 6000, mkRat 1 1, ()⟩ : Cfg Unit) (fun _ => ⟨"PASS"⟩)).2
      (by decide)).1⟩

/-! ## Hash-audit lemmas -/

/-- Looking up a key in an empty dict. -/
theorem dGet_nil (k : String) : dGet [] k = Option.none := rfl

/-- Lookup walks into the appended tail when the head misses. -/
theorem dGet_append {d : Dict} {k : String} (d2 : Dict) (h : dGet d k = Option.none) :
    dGet (d ++ d2) k = dGet d2 k := by
  induction d with
  | nil => rfl
  | cons hd tl ih =>
    obtain ⟨k1, v1⟩ := hd
    by_cases h1 : k1 = k
    · simp [dGet, h1] at h
    · simp only [dGet, if_neg h1] at h
      simp only [List.cons_append, dGet, if_neg h1]
      exact ih h

/-- A successful slot check always returns the expected digest (both the
fill branch and the compare branch). -/
theorem check_or_fill_ok_eq {f : String} {cur : PyVal} {e v : String}
    (h : check_or_fill_hash f cur e = .ok v) : v = e := by
  unfold check_or_fill_hash at h
  split at h
  · cases h
    rfl
  · split at h
    · split at h
      · cases h
        rfl
      · split at h
        · cases h
        · cases h
          next hne => simpa using hne
    · cases h

/-- A slot already holding the expected digest passes unchanged. -/
theorem check_or_fill_expected (f e : String) :
    check_or_fill_hash f (.str e) e = .ok e := by
  unfold check_or_fill_hash
  split
  · rfl
  · split
    · next s heq =>
      cases heq
      split
      · rfl
      · split
        · next hne => exact absurd rfl hne
        · rfl
    · next v himp => exact (himp e rfl).elim

/-- Slot processing only writes the slot keys. -/
theorem fillSlots_get_not_mem (pre : String) :
    ∀ (slots : List (String × String)) (d : Dict) (k : String),
      k ∉ slots.map Prod.fst → dGet (fillSlots pre slots d).1 k = dGet d k := by
  intro slots
  induction slots with
  | nil => intro d k _; rfl
  | cons se rest ih =>
    intro d k h
    obtain ⟨key, e⟩ := se
    simp only [List.map_cons, List.mem_cons] at h
    push_neg at h
    obtain ⟨h1, h2⟩ := h
    cases hc : check_or_fill_hash (pre ++ "." ++ key) (dGetD d key (.str "")) e with
    | ok v =>
      simp only [fillSlots, hc]
      rw [ih _ k h2, dGet_dSet_ne _ h1]
    | error ex =>
      simp only [fillSlots, hc]

/-- After a fully successful pass each slot holds its expected digest. -/
theorem fillSlots_ok_val (pre : String) :
    ∀ (slots : List (String × String)) (d d1 : Dict),
      (slots.map Prod.fst).Nodup →
      fillSlots pre slots d = (d1, Option.none) →
      ∀ ke ∈ slots, dGet d1 ke.1 = some (.str ke.2) := by
  intro slots
  induction slots with
  | nil => intro d d1 _ _ ke hm; simp at hm
  | cons se rest ih =>
    intro d d1 hnd h ke hm
    obtain ⟨key, e⟩ := se
    rw [List.map_cons, List.nodup_cons] at hnd
    obtain ⟨hk1, hk2⟩ := hnd
    cases hc : check_or_fill_hash (pre ++ "." ++ key) (dGetD d key (.str "")) e with
    | error ex => simp only [fillSlots, hc] at h; cases h
    | ok v =>
      rw [check_or_fill_ok_eq hc] at hc
      simp only [fillSlots, hc] at h
      rcases List.mem_cons.mp hm with rfl | hm2
      · have hp := fillSlots_get_not_mem pre rest (dSet d key (.str e)) key hk1
        rw [show (fillSlots pre rest (dSet d key (.str e))).1 = d1 from by rw [h]] at hp
        rw [hp, dGet_dSet_self]
      · exact ih _ _ hk2 h ke hm2

/-- A fully successful pass is idempotent: re-running it on its own
output dict changes nothing and succeeds again. -/
theorem fillSlots_idem_ok (pre : String) :
    ∀ (slots : List (String × String)) (d d1 : Dict),
      (slots.map Prod.fst).Nodup →
      fillSlots pre slots d = (d1, Option.none) →
      fillSlots pre slots d1 = (d1, Option.none) := by
  intro slots
  induction slots with
  | nil =>
    intro d d1 _ h
    cases h
    rfl
  | cons se rest ih =>
    intro d d1 hnd h
    obtain ⟨key, e⟩ := se
    rw [List.map_cons, List.nodup_cons] at hnd
    obtain ⟨hk1, hk2⟩ := hnd
    cases hc : check_or_fill_hash (pre ++ "." ++ key) (dGetD d key (.str "")) e with
    | error ex => simp only [fillSlots, hc] at h; cases h
    | ok v =>
      rw [check_or_fill_ok_eq hc] at hc
      simp only [fillSlots, hc] at h
      have hget : dGet d1 key = some (.str e) := by
        have hp := fillSlots_get_not_mem pre rest (dSet d key (.str e)) key hk1
        rw [show (fillSlots pre rest (dSet d key (.str e))).1 = d1 from by rw [h]] at hp
        rw [hp, dGet_dSet_self]
      have hd : dGetD d1 key (.str "") = .str e := by rw [dGetD, hget]; rfl
      simp only [fillSlots, hd, check_or_fill_expected]
      rw [dSet_eq_self hget]
      exact ih _ _ hk2 h

/-- A failing pass is idempotent: re-running it on the dict it left
behind fails the same way and changes nothing. -/
theorem fillSlots_idem_err (pre : String) :
    ∀ (slots : List (String × String)) (d d1 : Dict) (ex : Exc),
      (slots.map Prod.fst).Nodup →
      fillSlots pre slots d = (d1, some ex) →
      fillSlots pre slots d1 = (d1, some ex) := by
  intro slots
  induction slots with
  | nil => intro d d1 ex _ h; cases h
  | cons se rest ih =>
    intro d d1 ex hnd h
    obtain ⟨key, e⟩ := se
    rw [List.map_cons, List.nodup_cons] at hnd
    obtain ⟨hk1, hk2⟩ := hnd
    cases hc : check_or_fill_hash (pre ++ "." ++ key) (dGetD d key (.str "")) e with
    | error ex0 =>
      simp only [fillSlots, hc] at h
      cases h
      simp only [fillSlots, hc]
    | ok v =>
      rw [check_or_fill_ok_eq hc] at hc
      simp only [fillSlots, hc] at h
      have hget : dGet d1 key = some (.str e) := by
        have hp := fillSlots_get_not_mem pre rest (dSet d key (.str e)) key hk1
        rw [show (fillSlots pre rest (dSet d key (.str e))).1 = d1 from by rw [h]] at hp
        rw [hp, dGet_dSet_self]
      have hd : dGetD d1 key (.str "") = .str e := by rw [dGetD, hget]; rfl
      simp only [fillSlots, hd, check_or_fill_expected]
      rw [dSet_eq_self hget]
      exact ih _ _ _ hk2 h

/-- On success the cert is the input with only the hash field rewritten. -/
theorem hashBlock_ok_shape {field : String} {slots : List (String × String)}
    {cert c1 : Dict} (h : hashBlock field slots cert = .ok c1) :
    ∃ d1, c1 = dSet cert field (.dict d1) := by
  unfold hashBlock at h
  split at h
  · next d hg =>
    cases hf : (fillSlots field slots d).2 with
    | some e0 => simp only [hf] at h; cases h
    | none =>
      simp only [hf] at h
      cases h
      exact ⟨_, rfl⟩
  · next v hg hnd => cases h
  · next hg =>
    cases hf : (fillSlots field slots []).2 with
    | some e0 => simp only [hf] at h; cases h
    | none =>
      simp only [hf] at h
      cases h
      exact ⟨_, rfl⟩

/-- On failure the cert is unchanged or has only the hash field
rewritten (the aliased slot dict keeps the writes made before the
exception). -/
theorem hashBlock_err_shape {field : String} {slots : List (String × String)}
    {cert c2 : Dict} {e : Exc} (h : hashBlock field slots cert = .error (e, c2)) :
    c2 = cert ∨ ∃ d1, c2 = dSet cert field (.dict d1) := by
  unfold hashBlock at h
  split at h
  · next d hg =>
    cases hf : (fillSlots field slots d).2 with
    | some e0 =>
      simp only [hf] at h
      cases h
      exact Or.inr ⟨_, rfl⟩
    | none => simp only [hf] at h; cases h
  · next v hg hnd =>
    cases h
    exact Or.inl rfl
  · next hg =>
    cases hf : (fillSlots field slots []).2 with
    | some e0 =>
      simp only [hf] at h
      cases h
      exact Or.inl rfl
    | none => simp only [hf] at h; cases h

/-- A successful hash block is idempotent: re-running it on its own
output certificate succeeds with the identical certificate. -/
theorem hashBlock_ok_idem {field : String} {slots : List (String × String)}
    {cert c1 : Dict} (hnd : (slots.map Prod.fst).Nodup)
    (h : hashBlock field slots cert = .ok c1) :
    hashBlock field slots c1 = .ok c1 := by
  unfold hashBlock at h
  split at h
  · next d hg =>
    cases hf : (fillSlots field slots d).2 with
    | some e0 => simp only [hf] at h; cases h
    | none =>
      simp only [hf] at h
      cases h
      have hfull : fillSlots field slots d = ((fillSlots field slots d).1, Option.none) := by
        rw [← hf]
      have hidem := fillSlots_idem_ok field slots d _ hnd hfull
      have hg1 : dGet (dSet cert field (.dict (fillSlots field slots d).1)) field
          = some (.dict (fillSlots field slots d).1) := dGet_dSet_self _ _ _
      unfold hashBlock
      rw [hg1]
      simp only [hidem]
      rw [dSet_eq_self hg1]
  · next v hg hnd2 => cases h
  · next hg =>
    cases hf : (fillSlots field slots []).2 with
    | some e0 => simp only [hf] at h; cases h
    | none =>
      simp only [hf] at h
      cases h
      have hfull : fillSlots field slots [] = ((fillSlots field slots []).1, Option.none) := by
        rw [← hf]
      have hidem := fillSlots_idem_ok field slots [] _ hnd hfull
      have hg1 : dGet (dSet cert field (.dict (fillSlots field slots []).1)) field
          = some (.dict (fillSlots field slots []).1) := dGet_dSet_self _ _ _
      unfold hashBlock
      rw [hg1]
      simp only [hidem]
      rw [dSet_eq_self hg1]

/-- A failing hash block is idempotent: re-running it on the certificate
it left behind fails identically and changes nothing. -/
theorem hashBlock_err_idem {field : String} {slots : List (String × String)}
    {cert c2 : Dict} {e : Exc} (hnd : (slots.map Prod.fst).Nodup)
    (h : hashBlock field slots cert = .error (e, c2)) :
    hashBlock field slots c2 = .error (e, c2) := by
  cases hg : dGet cert field with
  | none =>
    unfold hashBlock at h
    rw [hg] at h
    cases hf : (fillSlots field slots []).2 with
    | some e0 =>
      simp only [hf] at h
      cases h
      unfold hashBlock
      rw [hg]
      simp only [hf]
    | none => simp only [hf] at h; cases h
  | some v =>
    cases v with
    | dict d =>
      unfold hashBlock at h
      rw [hg] at h
      cases hf : (fillSlots field slots d).2 with
      | some e0 =>
        simp only [hf] at h
        cases h
        have hfull : fillSlots field slots d = ((fillSlots field slots d).1, some e) := by
          rw [← hf]
        have hidem := fillSlots_idem_err field slots d _ e hnd hfull
        have hg1 : dGet (dSet cert field (.dict (fillSlots field slots d).1)) field
            = some (.dict (fillSlots field slots d).1) := dGet_dSet_self _ _ _
        unfold hashBlock
        rw [hg1]
        simp only [hidem]
        rw [dSet_eq_self hg1]
      | none => simp only [hf] at h; cases h
    | none =>
      unfold hashBlock at h
      rw [hg] at h
      cases h
      unfold hashBlock
      rw [hg]
    | bool b =>
      unfold hashBlock at h
      rw [hg] at h
      cases h
      unfold hashBlock
      rw [hg]
    | int n =>
      unfold hashBlock at h
      rw [hg] at h
      cases h
      unfold hashBlock
      rw [hg]
    | float q =>
      unfold hashBlock at h
      rw [hg] at h
      cases h
      unfold hashBlock
      rw [hg]
    | str s =>
      unfold hashBlock at h
      rw [hg] at h
      cases h
      unfold hashBlock
      rw [hg]
    | list xs =>
      unfold hashBlock at h
      rw [hg] at h
      cases h
      unfold hashBlock
      rw [hg]

/-- `_ensure_runlog` writes only `run_log`, leaving a dict that contains
`validated_at_utc`. -/
theorem ensureRunlog_ok_shape {now : String} {cert c1 : Dict}
    (h : ensureRunlog now cert = .ok c1) :
    ∃ d2, c1 = dSet cert "run_log" (.dict d2) ∧
      (dGet d2 "validated_at_utc").isSome = true ∧ d2 ≠ [] := by
  simp only [ensureRunlog] at h
  split at h
  · next iv hif =>
    split at h
    · next hvp =>
      cases h
      refine ⟨iv, rfl, by simpa using hvp, ?_⟩
      intro hnil
      subst hnil
      simp [dGet] at hvp
    · next hvp =>
      cases h
      have hnone : dGet iv "validated_at_utc" = Option.none := by
        rcases hO : dGet iv "validated_at_utc" with _ | x
        · rfl
        · rw [hO] at hvp
          simp at hvp
      refine ⟨_, rfl, ?_, by simp⟩
      rw [dGet_append _ hnone, dGet]
      simp
  · next v hif => cases h

/-- `_ensure_runlog` is a no-op on a certificate whose `run_log` already
is a non-empty dict containing `validated_at_utc`. -/
theorem ensureRunlog_idem {now2 : String} {c1 : Dict} {d2 : Dict}
    (hget : dGet c1 "run_log" = some (.dict d2)) (hne : d2 ≠ [])
    (hv : (dGet d2 "validated_at_utc").isSome = true) :
    ensureRunlog now2 c1 = .ok c1 := by
  have h0 : dGetD c1 "run_log" PyVal.none = .dict d2 := by rw [dGetD, hget]; rfl
  have ht : pyTruthy (.dict d2) = true := by
    simp [pyTruthy, List.isEmpty_eq_false, hne]
  simp only [ensureRunlog, h0, ht, hv, eq_self_iff_true, if_true]
  rw [dSet_eq_self hget]

/-- A slot holding a truthy string that is neither the AUTO sentinel nor
placeholder-prefixed, and that differs from the expected digest, raises
the mismatch `ValueError`. -/
theorem check_or_fill_mismatch (f : String) {s e : String}
    (hstr : pyTruthy (.str s) = true) (hauto : pyUpper (pyStrip s) ≠ "AUTO")
    (hph : pyStartsWith s "sha256:..." = false) (hne : s ≠ e) :
    check_or_fill_hash f (.str s) e
      = .error (.valueError (f ++ " mismatch: cert has " ++ s ++ ", expected " ++ e)) := by
  unfold check_or_fill_hash
  rw [if_neg (by simp [hstr])]
  dsimp only
  rw [if_neg (by simp [hauto, hph])]
  rw [if_pos hne]

/-- Slot processing of an extended list continues from the dict the
successful prefix left behind. -/
theorem fillSlots_append_ok (pre : String) :
    ∀ (s1 s2 : List (String × String)) (d d1 : Dict),
      fillSlots pre s1 d = (d1, Option.none) →
      fillSlots pre (s1 ++ s2) d = fillSlots pre s2 d1 := by
  intro s1
  induction s1 with
  | nil =>
    intro s2 d d1 h
    cases h
    rfl
  | cons se rest ih =>
    intro s2 d d1 h
    obtain ⟨key, e⟩ := se
    cases hc : check_or_fill_hash (pre ++ "." ++ key) (dGetD d key (.str "")) e with
    | error ex =>
      simp only [fillSlots, hc] at h
      cases h
    | ok v =>
      simp only [fillSlots, hc] at h
      rw [List.cons_append]
      simp only [fillSlots, hc]
      exact ih s2 _ d1 h

/-- A mismatching slot anywhere in the list (truthy, non-AUTO,
non-placeholder stored value differing from the expected digest) makes
the slot pass stop with an exception: it cannot be masked by the other
slots. -/
theorem fillSlots_err_of_mem (pre : String) :
    ∀ (slots : List (String × String)) (d : Dict) (key exp s : String),
      (slots.map Prod.fst).Nodup →
      (key, exp) ∈ slots →
      dGetD d key (.str "") = .str s →
      pyTruthy (.str s) = true →
      pyUpper (pyStrip s) ≠ "AUTO" →
      pyStartsWith s "sha256:..." = false →
      s ≠ exp →
      ∃ ex d1, fillSlots pre slots d = (d1, some ex) := by
  intro slots
  induction slots with
  | nil =>
    intro d key exp s _ hm
    simp at hm
  | cons se rest ih =>
    intro d key exp s hnd hm hget hstr hauto hph hne
    obtain ⟨k0, e0⟩ := se
    rw [List.map_cons, List.nodup_cons] at hnd
    obtain ⟨hk1, hk2⟩ := hnd
    rcases List.mem_cons.mp hm with heq | hm2
    · injection heq with hk he
      subst hk
      subst he
      have hc := check_or_fill_mismatch (pre ++ "." ++ key) hstr hauto hph hne
      rw [← hget] at hc
      simp only [fillSlots, hc]
      exact ⟨_, _, rfl⟩
    · have hkne : key ≠ k0 := by
        intro hkk
        apply hk1
        rw [← hkk]
        exact List.mem_map.mpr ⟨(key, exp), hm2, rfl⟩
      cases hc : check_or_fill_hash (pre ++ "." ++ k0) (dGetD d k0 (.str "")) e0 with
      | error ex =>
        simp only [fillSlots, hc]
        exact ⟨ex, d, rfl⟩
      | ok v =>
        simp only [fillSlots, hc]
        have hget2 : dGetD (dSet d k0 (.str v)) key (.str "") = .str s := by
          unfold dGetD at hget ⊢
          rw [dGet_dSet_ne _ hkne]
          exact hget
        exact ih _ key exp s hk2 hm2 hget2 hstr hauto hph hne

/-- A mismatching slot anywhere forces the audited hash block to fail. -/
theorem hashBlock_err_of_mem {field : String} {slots : List (String × String)}
    {cert d : Dict} {key exp s : String}
    (hnd : (slots.map Prod.fst).Nodup)
    (hf : dGet cert field = some (.dict d))
    (hm : (key, exp) ∈ slots)
    (hget : dGetD d key (.str "") = .str s)
    (hstr : pyTruthy (.str s) = true) (hauto : pyUpper (pyStrip s) ≠ "AUTO")
    (hph : pyStartsWith s "sha256:..." = false) (hne : s ≠ exp) :
    ∃ ex c2, hashBlock field slots cert = .error (ex, c2) := by
  obtain ⟨ex, d1, hfs⟩ := fillSlots_err_of_mem field slots d key exp s hnd hm hget hstr hauto hph hne
  refine ⟨ex, dSet cert field (.dict d1), ?_⟩
  unfold hashBlock
  rw [hf]
  simp only [hfs]

/-- When the slots before the mismatching one all succeed, the block
fails with exactly the mismatch `ValueError` of that slot, the earlier
fills left in place. -/
theorem hashBlock_first_mismatch {field : String} {pre : List (String × String)}
    (post : List (String × String)) {key exp s : String} {cert d d1 : Dict}
    (hf : dGet cert field = some (.dict d))
    (hpre : fillSlots field pre d = (d1, Option.none))
    (hget : dGetD d1 key (.str "") = .str s)
    (hstr : pyTruthy (.str s) = true) (hauto : pyUpper (pyStrip s) ≠ "AUTO")
    (hph : pyStartsWith s "sha256:..." = false) (hne : s ≠ exp) :
    hashBlock field (pre ++ (key, exp) :: post) cert
      = .error (.valueError (field ++ "." ++ key ++ " mismatch: cert has " ++ s
          ++ ", expected " ++ exp), dSet cert field (.dict d1)) := by
  have hc := check_or_fill_mismatch (field ++ "." ++ key) hstr hauto hph hne
  rw [← hget] at hc
  have hfs : fillSlots field (pre ++ (key, exp) :: post) d
      = (d1, some (.valueError (field ++ "." ++ key ++ " mismatch: cert has " ++ s
          ++ ", expected " ++ exp))) := by
    rw [fillSlots_append_ok field pre ((key, exp) :: post) d d1 hpre]
    simp only [fillSlots, hc]
  unfold hashBlock
  rw [hf]
  simp only [hfs]

/-! ## Claim C7 -/

/-- C7 counterexample: a stored slot value carrying the placeholder
prefix `sha256:...` is non-empty and not the AUTO sentinel, and differs
from the recomputed digest, yet validation fills it and returns
PASS(RFS) instead of NO-EVAL(RFS5). -/
theorem C7_counterexample :
    certVerdictOf (validate_rfs "sha256:real" "ED" "EE"
      (rfsCertEx (.dict [("code", .str "sha256:...TBD"), ("data", .str "AUTO"),
        ("env", .str "AUTO")])))
      = "PASS(RFS)"
    ∧ "sha256:...TBD" ≠ ""
    ∧ pyUpper (pyStrip "sha256:...TBD") ≠ "AUTO"
    ∧ "sha256:...TBD" ≠ "sha256:real"
    ∧ "PASS(RFS)" ≠ "NO-EVAL(RFS5)" := by decide

/-- C7 (amended): a filled hash slot triggers the mismatch path only if
its stored string is truthy, not the AUTO sentinel (stripped,
case-insensitive), and not prefixed by the `sha256:...` placeholder.
For any slot of either kind — code/data of the PA `hashes` map,
code/data/env of the RFS `audit_hashes` map — whose stored value lies
outside those fill conditions and differs from the recomputed digest,
validation of a certificate passing the required-field and type checks
deterministically returns NO-EVAL(PA5) resp. NO-EVAL(RFS5) carrying a
hash-audit note; and when the slots before it all pass, the note
preserves exactly that slot's mismatch detail — slot name, stored value,
expected digest. -/
theorem C7_hash_mismatch :
    (∀ (ec ed now : String) (cert certA d : Dict) (key exp s : String),
      missingOf cert PA_REQUIRED = [] →
      isStrEq (dGet cert "cert_type") "PA-CERT" = true →
      ensureRunlog now cert = .ok certA →
      dGet cert "hashes" = some (.dict d) →
      (key, exp) ∈ [("code", ec), ("data", ed)] →
      dGetD d key (.str "") = .str s →
      pyTruthy (.str s) = true →
      pyUpper (pyStrip s) ≠ "AUTO" →
      pyStartsWith s "sha256:..." = false →
      s ≠ exp →
      ∃ (e : Exc) (c2 : Dict),
        validate_pa ec ed now cert
          = .ok (⟨"NO-EVAL(PA5)", "Hash audit failed: " ++ excStr e⟩, c2)) ∧
    (∀ (ec ed ee : String) (cert d : Dict) (key exp s : String),
      missingOf cert RFS_REQUIRED = [] →
      isStrEq (dGet cert "cert_type") "RFS-CERT" = true →
      dGet cert "audit_hashes" = some (.dict d) →
      (key, exp) ∈ [("code", ec), ("data", ed), ("env", ee)] →
      dGetD d key (.str "") = .str s →
      pyTruthy (.str s) = true →
      pyUpper (pyStrip s) ≠ "AUTO" →
      pyStartsWith s "sha256:..." = false →
      s ≠ exp →
      ∃ (e : Exc) (c2 : Dict),
        validate_rfs ec ed ee cert
          = .ok (⟨"NO-EVAL(RFS5)", "End-to-end audit failed: " ++ excStr e⟩, c2)) ∧
    (∀ (ec ed now : String) (cert certA d d1 : Dict)
        (pre post : List (String × String)) (key exp s : String),
      missingOf cert PA_REQUIRED = [] →
      isStrEq (dGet cert "cert_type") "PA-CERT" = true →
      ensureRunlog now cert = .ok certA →
      dGet cert "hashes" = some (.dict d) →
      [("code", ec), ("data", ed)] = pre ++ (key, exp) :: post →
      fillSlots "hashes" pre d = (d1, Option.none) →
      dGetD d key (.str "") = .str s →
      pyTruthy (.str s) = true →
      pyUpper (pyStrip s) ≠ "AUTO" →
      pyStartsWith s "sha256:..." = false →
      s ≠ exp →
      validate_pa ec ed now cert
        = .ok (⟨"NO-EVAL(PA5)", "Hash audit failed: "
            ++ ("hashes" ++ "." ++ key ++ " mismatch: cert has " ++ s
              ++ ", expected " ++ exp)⟩,
          dSet certA "hashes" (.dict d1))) ∧
    (∀ (ec ed ee : String) (cert d d1 : Dict)
        (pre post : List (String × String)) (key exp s : String),
      missingOf cert RFS_REQUIRED = [] →
      isStrEq (dGet cert "cert_type") "RFS-CERT" = true →
      dGet cert "audit_hashes" = some (.dict d) →
      [("code", ec), ("data", ed), ("env", ee)] = pre ++ (key, exp) :: post →
      fillSlots "audit_hashes" pre d = (d1, Option.none) →
      dGetD d key (.str "") = .str s →
      pyTruthy (.str s) = true →
      pyUpper (pyStrip s) ≠ "AUTO" →
      pyStartsWith s "sha256:..." = false →
      s ≠ exp →
      validate_rfs ec ed ee cert
        = .ok (⟨"NO-EVAL(RFS5)", "End-to-end audit failed: "
            ++ ("audit_hashes" ++ "." ++ key ++ " mismatch: cert has " ++ s
              ++ ", expected " ++ exp)⟩,
          dSet cert "audit_hashes" (.dict d1))) := by
  refine ⟨?_, ?_, ?_, ?_⟩
  · intro ec ed now cert certA d key exp s hmiss htype hrl hhash hm hget hstr hauto hph hne
    have hnd : (([("code", ec), ("data", ed)] : List (String × String)).map Prod.fst).Nodup := by
      show List.Nodup ["code", "data"]
      decide
    obtain ⟨d2, hA, _, _⟩ := ensureRunlog_ok_shape hrl
    have hhashA : dGet certA "hashes" = some (.dict d) := by
      rw [hA, dGet_dSet_ne _ (by decide)]
      exact hhash
    obtain ⟨ex, c2, hhb⟩ := hashBlock_err_of_mem hnd hhashA hm hget hstr hauto hph hne
    refine ⟨ex, c2, ?_⟩
    unfold validate_pa
    rw [if_neg (by simp [hmiss]), if_neg (by simp [htype])]
    simp only [hrl, hhb]
  · intro ec ed ee cert d key exp s hmiss htype hhash hm hget hstr hauto hph hne
    have hnd : (([("code", ec), ("data", ed), ("env", ee)]
        : List (String × String)).map Prod.fst).Nodup := by
      show List.Nodup ["code", "data", "env"]
      decide
    obtain ⟨ex, c2, hhb⟩ := hashBlock_err_of_mem hnd hhash hm hget hstr hauto hph hne
    refine ⟨ex, c2, ?_⟩
    unfold validate_rfs
    rw [if_neg (by simp [hmiss]), if_neg (by simp [htype])]
    simp only [hhb]
  · intro ec ed now cert certA d d1 pre post key exp s
      hmiss htype hrl hhash hsl hpre hget hstr hauto hph hne
    obtain ⟨d2, hA, _, _⟩ := ensureRunlog_ok_shape hrl
    have hhashA : dGet certA "hashes" = some (.dict d) := by
      rw [hA, dGet_dSet_ne _ (by decide)]
      exact hhash
    have hnd2 : ((pre ++ (key, exp) :: post).map Prod.fst).Nodup := by
      rw [← hsl]
      show List.Nodup ["code", "data"]
      decide
    have hknp : key ∉ pre.map Prod.fst := by
      rw [List.map_append, List.map_cons, List.nodup_append] at hnd2
      intro hkp
      exact hnd2.2.2 hkp (List.mem_cons_self _ _)
    have hget1 : dGetD d1 key (.str "") = .str s := by
      unfold dGetD at hget ⊢
      have hnm := fillSlots_get_not_mem "hashes" pre d key hknp
      rw [show (fillSlots "hashes" pre d).1 = d1 from by rw [hpre]] at hnm
      rw [hnm]
      exact hget
    have hhb := hashBlock_first_mismatch post hhashA hpre hget1 hstr hauto hph hne
    rw [← hsl] at hhb
    unfold validate_pa
    rw [if_neg (by simp [hmiss]), if_neg (by simp [htype])]
    simp only [hrl, hhb]
    rfl
  · intro ec ed ee cert d d1 pre post key exp s
      hmiss htype hhash hsl hpre hget hstr hauto hph hne
    have hnd2 : ((pre ++ (key, exp) :: post).map Prod.fst).Nodup := by
      rw [← hsl]
      show List.Nodup ["code", "data", "env"]
      decide
    have hknp : key ∉ pre.map Prod.fst := by
      rw [List.map_append, List.map_cons, List.nodup_append] at hnd2
      intro hkp
      exact hnd2.2.2 hkp (List.mem_cons_self _ _)
    have hget1 : dGetD d1 key (.str "") = .str s := by
      unfold dGetD at hget ⊢
      have hnm := fillSlots_get_not_mem "audit_hashes" pre d key hknp
      rw [show (fillSlots "audit_hashes" pre d).1 = d1 from by rw [hpre]] at hnm
      rw [hnm]
      exact hget
    have hhb := hashBlock_first_mismatch post hhash hpre hget1 hstr hauto hph hne
    rw [← hsl] at hhb
    unfold validate_rfs
    rw [if_neg (by simp [hmiss]), if_neg (by simp [htype])]
    simp only [hhb]
    rfl

/-- C7 witness: the amended theorem applied to a concrete PA certificate
whose code slot auto-fills and whose data slot holds a genuinely filled,
mismatching digest — the original claim's context-mutation scenario. -/
theorem C7_hash_mismatch_witness :
    validate_pa "EC" "sha256:aaa" "T0"
      (paCertEx (.dict [("code", .str "AUTO"), ("data", .str "sha256:deadbeef")]) (.dict []))
      = .ok (⟨"NO-EVAL(PA5)",
          "Hash audit failed: hashes.data mismatch: cert has sha256:deadbeef, expected sha256:aaa"⟩,
        paCertEx (.dict [("code", .str "EC"), ("data", .str "sha256:deadbeef")])
          (.dict [("validated_at_utc", .str "T0")])) :=
  C7_hash_mismatch.2.2.1 "EC" "sha256:aaa" "T0"
    (paCertEx (.dict [("code", .str "AUTO"), ("data", .str "sha256:deadbeef")]) (.dict []))
    _ _ _ [("code", "EC")] [] "data" "sha256:aaa" "sha256:deadbeef"
    (by decide) (by decide) rfl rfl rfl rfl rfl (by decide) (by decide) (by decide) (by decide)

/-! ## Claim C9 -/

/-- C9 counterexample: an IO certificate whose identifiability metric
value is the non-numeric string abc yields NO-EVAL(IO1) — not the
NO-EVAL(IO2) the claim names. -/
theorem C9_counterexample :
    (validate_io (ioCertEx (.str "abc"))).verdict = "NO-EVAL(IO1)"
    ∧ "NO-EVAL(IO1)" ≠ "NO-EVAL(IO2)" := by decide

/-- C9 (amended): an absent or non-numeric operand makes the IO
validator return NO-EVAL(IO1) — the same code as its schema failures,
not a dedicated IO2 — and the PA validator return NO-EVAL(PA2); both are
distinct from the NO-EVAL(IO3) / NO-EVAL(PA3) returned when the
comparison computes but proves the claim uninformative. -/
theorem C9_numeric_unusable :
    (∀ (cert : Dict) (e : Exc),
      missingOf cert IO_REQUIRED = [] →
      isStrEq (dGet cert "cert_type") "IO-CERT" = true →
      ioMetric cert = .error e →
      validate_io cert = ⟨"NO-EVAL(IO1)", "Identifiability metric not usable: " ++ excStr e⟩) ∧
    (∀ cert : Dict,
      missingOf cert IO_REQUIRED = [] →
      isStrEq (dGet cert "cert_type") "IO-CERT" = true →
      ioMetric cert = .ok true →
      validate_io cert = ⟨"NO-EVAL(IO3)", "Identifiability metric below threshold"⟩) ∧
    (∀ (cert im : Dict),
      dGet cert "identifiability_metric" = some (.dict im) →
      dGet im "value" = Option.none →
      ioMetric cert = .error (.keyError "value")) ∧
    (∀ (ec ed now : String) (cert certA certB : Dict) (e : Exc),
      missingOf cert PA_REQUIRED = [] →
      isStrEq (dGet cert "cert_type") "PA-CERT" = true →
      ensureRunlog now cert = .ok certA →
      hashBlock "hashes" [("code", ec), ("data", ed)] certA = .ok certB →
      paDominance certB = .error e →
      validate_pa ec ed now cert
        = .ok (⟨"NO-EVAL(PA2)", "Projection error bound not usable: " ++ excStr e⟩, certB)) ∧
    "NO-EVAL(PA2)" ≠ "NO-EVAL(PA3)" ∧ "NO-EVAL(IO1)" ≠ "NO-EVAL(IO3)" := by
  refine ⟨?_, ?_, ?_, ?_, by decide, by decide⟩
  · intro cert e hmiss htype hio
    unfold validate_io
    rw [if_neg (by simp [hmiss])]
    rw [if_neg (by simp [htype])]
    simp only [hio]
  · intro cert hmiss htype hio
    unfold validate_io
    rw [if_neg (by simp [hmiss])]
    rw [if_neg (by simp [htype])]
    simp only [hio]
  · intro cert im h1 h2
    simp [ioMetric, getItemE, h1, h2, bind, Except.bind]
  · intro ec ed now cert certA certB e hmiss htype hrl hhb hdom
    unfold validate_pa
    rw [if_neg (by simp [hmiss])]
    rw [if_neg (by simp [htype])]
    simp only [hrl, hhb, hdom]

/-- C9 witness: the amended theorem's IO clause applied to the concrete
certificate with the non-numeric metric value abc. -/
theorem C9_numeric_unusable_witness :
    validate_io (ioCertEx (.str "abc"))
      = ⟨"NO-EVAL(IO1)",
          "Identifiability metric not usable: could not convert string to float: 'abc'"⟩ :=
  C9_numeric_unusable.1 (ioCertEx (.str "abc"))
    (.valueError "could not convert string to float: 'abc'") (by decide) (by decide) rfl

/-! ## Claim C8 -/

/-- C8 counterexample: PA validation also mutates `run_log` in place —
`_ensure_runlog` fills `validated_at_utc` — so the hash slots are not the
only fields mutated. -/
theorem C8_counterexample :
    validate_pa "EC" "ED" "T0"
        (paCertEx (.dict [("code", .str "AUTO"), ("data", .str "AUTO")]) (.dict []))
      = .ok (⟨"NO-EVAL(PA3)", "Projection error dominates data uncertainty"⟩,
          paCertEx (.dict [("code", .str "EC"), ("data", .str "ED")])
            (.dict [("validated_at_utc", .str "T0")]))
    ∧ dGet (paCertEx (.dict [("code", .str "EC"), ("data", .str "ED")])
          (.dict [("validated_at_utc", .str "T0")])) "run_log"
        ≠ dGet (paCertEx (.dict [("code", .str "AUTO"), ("data", .str "AUTO")])
          (.dict [])) "run_log" := by
  constructor
  · rfl
  · intro hcontra
    have h1 : dGet (paCertEx (.dict [("code", .str "EC"), ("data", .str "ED")])
        (.dict [("validated_at_utc", .str "T0")])) "run_log"
        = some (.dict [("validated_at_utc", .str "T0")]) := rfl
    have h2 : dGet (paCertEx (.dict [("code", .str "AUTO"), ("data", .str "AUTO")])
        (.dict [])) "run_log" = some (.dict []) := rfl
    rw [h1, h2] at hcontra
    simp at hcontra

/-- C8 (amended): PA validation mutates exactly the `hashes` map and the
`run_log` field (where `validated_at_utc` is auto-filled); RFS validation
mutates only the `audit_hashes` map.  Every other field survives
validation unchanged. -/
theorem C8_frame :
    (∀ (ec ed now : String) (cert : Dict) (v : CertVerdict) (c1 : Dict),
      validate_pa ec ed now cert = .ok (v, c1) →
      ∀ k, k ≠ "hashes" → k ≠ "run_log" → dGet c1 k = dGet cert k) ∧
    (∀ (ec ed ee : String) (cert : Dict) (v : CertVerdict) (c1 : Dict),
      validate_rfs ec ed ee cert = .ok (v, c1) →
      ∀ k, k ≠ "audit_hashes" → dGet c1 k = dGet cert k) := by
  constructor
  · intro ec ed now cert v c1 h k hk1 hk2
    unfold validate_pa at h
    by_cases hm : (!(missingOf cert PA_REQUIRED).isEmpty) = true
    · rw [if_pos hm] at h
      cases h
      rfl
    · rw [if_neg hm] at h
      by_cases ht : (!isStrEq (dGet cert "cert_type") "PA-CERT") = true
      · rw [if_pos ht] at h
        cases h
        rfl
      · rw [if_neg ht] at h
        cases hr : ensureRunlog now cert with
        | error e =>
          simp only [hr] at h
          cases h
        | ok certA =>
          simp only [hr] at h
          obtain ⟨d2, hA, _, _⟩ := ensureRunlog_ok_shape hr
          cases hh : hashBlock "hashes" [("code", ec), ("data", ed)] certA with
          | error p =>
            obtain ⟨e0, c2⟩ := p
            simp only [hh] at h
            cases h
            rcases hashBlock_err_shape hh with rfl | ⟨d1, rfl⟩
            · rw [hA, dGet_dSet_ne _ hk2]
            · rw [dGet_dSet_ne _ hk1, hA, dGet_dSet_ne _ hk2]
          | ok certB =>
            simp only [hh] at h
            obtain ⟨d1, hB⟩ := hashBlock_ok_shape hh
            have hgoal : dGet certB k = dGet cert k := by
              rw [hB, dGet_dSet_ne _ hk1, hA, dGet_dSet_ne _ hk2]
            cases hd : paDominance certB with
            | error e =>
              simp only [hd] at h
              cases h
              exact hgoal
            | ok b =>
              cases b
              · simp only [hd] at h
                cases h
                exact hgoal
              · simp only [hd] at h
                cases h
                exact hgoal
  · intro ec ed ee cert v c1 h k hk
    unfold validate_rfs at h
    by_cases hm : (!(missingOf cert RFS_REQUIRED).isEmpty) = true
    · rw [if_pos hm] at h
      cases h
      rfl
    · rw [if_neg hm] at h
      by_cases ht : (!isStrEq (dGet cert "cert_type") "RFS-CERT") = true
      · rw [if_pos ht] at h
        cases h
        rfl
      · rw [if_neg ht] at h
        cases hh : hashBlock "audit_hashes" [("code", ec), ("data", ed), ("env", ee)] cert with
        | error p =>
          obtain ⟨e0, c2⟩ := p
          simp only [hh] at h
          cases h
          rcases hashBlock_err_shape hh with rfl | ⟨d1, rfl⟩
          · rfl
          · rw [dGet_dSet_ne _ hk]
        | ok cert1 =>
          simp only [hh] at h
          obtain ⟨d1, hB⟩ := hashBlock_ok_shape hh
          have hgoal : dGet cert1 k = dGet cert k := by
            rw [hB, dGet_dSet_ne _ hk]
          cases hp : rfsSweepFlag cert1 "pcn_sweep" with
          | error e =>
            simp only [hp] at h
            cases h
          | ok b =>
            cases b
            · simp only [hp] at h
              cases hq : rfsSweepFlag cert1 "pcd_sweep" with
              | error e =>
                simp only [hq] at h
                cases h
              | ok b2 =>
                cases b2
                · simp only [hq] at h
                  cases h
                  exact hgoal
                · simp only [hq] at h
                  cases h
                  exact hgoal
            · simp only [hp] at h
              cases h
              exact hgoal

/-- C8 witness: on a concrete PA validation the untouched `cert_type`
field is preserved. -/
theorem C8_frame_witness :
    dGet (paCertEx (.dict [("code", .str "EC"), ("data", .str "ED")])
        (.dict [("validated_at_utc", .str "T0")])) "cert_type"
      = dGet (paCertEx (.dict [("code", .str "AUTO"), ("data", .str "AUTO")])
        (.dict [])) "cert_type" :=
  C8_frame.1 "EC" "ED" "T0"
    (paCertEx (.dict [("code", .str "AUTO"), ("data", .str "AUTO")]) (.dict []))
    ⟨"NO-EVAL(PA3)", "Projection error dominates data uncertainty"⟩
    (paCertEx (.dict [("code", .str "EC"), ("data", .str "ED")])
      (.dict [("validated_at_utc", .str "T0")]))
    rfl "cert_type" (by decide) (by decide)

/-! ## Claim C6 -/

/-- C6: hash-audit idempotence.  Whatever verdict `validate_pa` returns
on a certificate (auto-filling empty or AUTO hash slots and the run log
on the way), running it again on the certificate the first call left
behind returns the identical verdict and note and leaves the certificate
unchanged — the second pass's verification of the auto-filled digests is
a no-op. -/
theorem C6_hash_idempotence :
    ∀ (ec ed now now2 : String) (cert : Dict) (v : CertVerdict) (c1 : Dict),
      validate_pa ec ed now cert = .ok (v, c1) →
      validate_pa ec ed now2 c1 = .ok (v, c1) := by
  intro ec ed now now2 cert v c1 h
  have hnd : (([("code", ec), ("data", ed)] : List (String × String)).map Prod.fst).Nodup := by
    show List.Nodup ["code", "data"]
    decide
  unfold validate_pa at h
  by_cases hm : (!(missingOf cert PA_REQUIRED).isEmpty) = true
  · rw [if_pos hm] at h
    cases h
    unfold validate_pa
    rw [if_pos hm]
  · rw [if_neg hm] at h
    have hm0 : missingOf cert PA_REQUIRED = [] := by
      cases hx : missingOf cert PA_REQUIRED with
      | nil => rfl
      | cons a l =>
        rw [hx] at hm
        simp at hm
    by_cases ht : (!isStrEq (dGet cert "cert_type") "PA-CERT") = true
    · rw [if_pos ht] at h
      cases h
      unfold validate_pa
      rw [if_neg hm, if_pos ht]
    · rw [if_neg ht] at h
      have ht0 : isStrEq (dGet cert "cert_type") "PA-CERT" = true := by
        simpa using ht
      cases hr : ensureRunlog now cert with
      | error e =>
        simp only [hr] at h
        cases h
      | ok certA =>
        simp only [hr] at h
        obtain ⟨d2, hA, hvs, hdne⟩ := ensureRunlog_ok_shape hr
        have hrlA : dGet certA "run_log" = some (.dict d2) := by
          rw [hA]
          exact dGet_dSet_self _ _ _
        have hmA : missingOf certA PA_REQUIRED = [] := by
          rw [hA]
          exact missingOf_dSet_nil _ _ hm0
        have htA : isStrEq (dGet certA "cert_type") "PA-CERT" = true := by
          rw [hA, dGet_dSet_ne _ (by decide)]
          exact ht0
        cases hh : hashBlock "hashes" [("code", ec), ("data", ed)] certA with
        | error p =>
          obtain ⟨e0, c2⟩ := p
          simp only [hh] at h
          cases h
          rcases hashBlock_err_shape hh with rfl | ⟨d1, rfl⟩
          · have her : ensureRunlog now2 c1 = .ok c1 :=
              ensureRunlog_idem hrlA hdne hvs
            have hhb := hashBlock_err_idem hnd hh
            unfold validate_pa
            rw [if_neg (by simp [hmA]), if_neg (by simp [htA])]
            simp only [her, hhb]
          · have hm2 : missingOf (dSet certA "hashes" (.dict d1)) PA_REQUIRED = [] :=
              missingOf_dSet_nil _ _ hmA
            have ht2 : isStrEq (dGet (dSet certA "hashes" (.dict d1)) "cert_type") "PA-CERT"
                = true := by
              rw [dGet_dSet_ne _ (by decide)]
              exact htA
            have hrl2 : dGet (dSet certA "hashes" (.dict d1)) "run_log" = some (.dict d2) := by
              rw [dGet_dSet_ne _ (by decide)]
              exact hrlA
            have her : ensureRunlog now2 (dSet certA "hashes" (.dict d1))
                = .ok (dSet certA "hashes" (.dict d1)) :=
              ensureRunlog_idem hrl2 hdne hvs
            have hhb := hashBlock_err_idem hnd hh
            unfold validate_pa
            rw [if_neg (by simp [hm2]), if_neg (by simp [ht2])]
            simp only [her, hhb]
        | ok certB =>
          simp only [hh] at h
          obtain ⟨d1, hB⟩ := hashBlock_ok_shape hh
          have hmB : missingOf certB PA_REQUIRED = [] := by
            rw [hB]
            exact missingOf_dSet_nil _ _ hmA
          have htB : isStrEq (dGet certB "cert_type") "PA-CERT" = true := by
            rw [hB, dGet_dSet_ne _ (by decide)]
            exact htA
          have hrlB : dGet certB "run_log" = some (.dict d2) := by
            rw [hB, dGet_dSet_ne _ (by decide)]
            exact hrlA
          have her : ensureRunlog now2 certB = .ok certB :=
            ensureRunlog_idem hrlB hdne hvs
          have hhb : hashBlock "hashes" [("code", ec), ("data", ed)] certB = .ok certB :=
            hashBlock_ok_idem hnd hh
          cases hd : paDominance certB with
          | error e =>
            simp only [hd] at h
            cases h
            unfold validate_pa
            rw [if_neg (by simp [hmB]), if_neg (by simp [htB])]
            simp only [her, hhb, hd]
          | ok b =>
            cases b
            · simp only [hd] at h
              cases h
              unfold validate_pa
              rw [if_neg (by simp [hmB]), if_neg (by simp [htB])]
              simp only [her, hhb, hd]
            · simp only [hd] at h
              cases h
              unfold validate_pa
              rw [if_neg (by simp [hmB]), if_neg (by simp [htB])]
              simp only [her, hhb, hd]

/-- C6 witness: the PA certificate auto-filled by a first validation
passes a second validation (at a different timestamp) with the identical
verdict and no further change. -/
theorem C6_hash_idempotence_witness :
    validate_pa "EC" "ED" "T1"
      (paCertEx (.dict [("code", .str "EC"), ("data", .str "ED")])
        (.dict [("validated_at_utc", .str "T0")]))
      = .ok (⟨"NO-EVAL(PA3)", "Projection error dominates data uncertainty"⟩,
          paCertEx (.dict [("code", .str "EC"), ("data", .str "ED")])
            (.dict [("validated_at_utc", .str "T0")])) :=
  C6_hash_idempotence "EC" "ED" "T0" "T1"
    (paCertEx (.dict [("code", .str "AUTO"), ("data", .str "AUTO")]) (.dict []))
    ⟨"NO-EVAL(PA3)", "Projection error dominates data uncertainty"⟩
    (paCertEx (.dict [("code", .str "EC"), ("data", .str "ED")])
      (.dict [("validated_at_utc", .str "T0")]))
    rfl

end OCC
